import Mathlib

/-!
Verification of the pace42 agent-service core against its natural-language
specification.  The development shallowly embeds the Python sources

  * `src/data/normalizer.py`   (class `GarminDataNormalizer`)
  * `src/agents/base_agent.py` (class `FlexibleRunningAgent`)
  * `src/agents/coach_qa.py`   (class `CoachQAAgent`)

into Lean.  Dynamically-typed Python values are modelled by the inductive
`PyVal`; Python dictionaries are association lists that keep insertion
order, numbers are rationals, and code that can raise is embedded in
`Except String` with the exception class name as the error payload.
Integer and float zero literals are kept apart (`PyVal.int` vs
`PyVal.float`); values produced by arithmetic are stored as `PyVal.float`,
matching Python where division always yields a float.
-/

/-- Model of a runtime Python value (the payload shapes the service handles). -/
inductive PyVal where
  | none : PyVal
  | bool : Bool → PyVal
  | int : Int → PyVal
  | float : ℚ → PyVal
  | str : String → PyVal
  | list : List PyVal → PyVal
  | dict : List (String × PyVal) → PyVal

namespace PyVal

mutual

def pyBeq (a b : PyVal) : Bool :=
  match a, b with
  | .none, .none => true
  | .bool x, .bool y => x == y
  | .int x, .int y => x == y
  | .float x, .float y => x == y
  | .str x, .str y => x == y
  | .list x, .list y => pyBeqElems x y
  | .dict x, .dict y => pyBeqPairs x y
  | _, _ => false

def pyBeqElems (a b : List PyVal) : Bool :=
  match a, b with
  | [], [] => true
  | v :: restA, w :: restB => pyBeq v w && pyBeqElems restA restB
  | _, _ => false

def pyBeqPairs (a b : List (String × PyVal)) : Bool :=
  match a, b with
  | [], [] => true
  | (ka, va) :: restA, (kb, vb) :: restB =>
      ka == kb && (pyBeq va vb && pyBeqPairs restA restB)
  | _, _ => false

end

mutual

theorem pyBeq_iff : ∀ a b : PyVal, pyBeq a b = true ↔ a = b
  | .none, .none => by simp [pyBeq]
  | .bool _, .bool _ => by simp [pyBeq]
  | .int _, .int _ => by simp [pyBeq]
  | .float _, .float _ => by simp [pyBeq]
  | .str _, .str _ => by simp [pyBeq]
  | .list x, .list y => by simp [pyBeq, pyBeqElems_iff x y]
  | .dict x, .dict y => by simp [pyBeq, pyBeqPairs_iff x y]
  | .none, .bool _ | .none, .int _ | .none, .float _
  | .none, .str _ | .none, .list _ | .none, .dict _
  | .bool _, .none | .bool _, .int _ | .bool _, .float _
  | .bool _, .str _ | .bool _, .list _ | .bool _, .dict _
  | .int _, .none | .int _, .bool _ | .int _, .float _
  | .int _, .str _ | .int _, .list _ | .int _, .dict _
  | .float _, .none | .float _, .bool _ | .float _, .int _
  | .float _, .str _ | .float _, .list _ | .float _, .dict _
  | .str _, .none | .str _, .bool _ | .str _, .int _
  | .str _, .float _ | .str _, .list _ | .str _, .dict _
  | .list _, .none | .list _, .bool _ | .list _, .int _
  | .list _, .float _ | .list _, .str _ | .list _, .dict _
  | .dict _, .none | .dict _, .bool _ | .dict _, .int _
  | .dict _, .float _ | .dict _, .str _ | .dict _, .list _ => by simp [pyBeq]

theorem pyBeqElems_iff : ∀ a b : List PyVal, pyBeqElems a b = true ↔ a = b
  | [], [] => by simp [pyBeqElems]
  | [], _ :: _ => by simp [pyBeqElems]
  | _ :: _, [] => by simp [pyBeqElems]
  | v :: restA, w :: restB => by
      simp [pyBeqElems, pyBeq_iff v w, pyBeqElems_iff restA restB]

theorem pyBeqPairs_iff : ∀ a b : List (String × PyVal), pyBeqPairs a b = true ↔ a = b
  | [], [] => by simp [pyBeqPairs]
  | [], _ :: _ => by simp [pyBeqPairs]
  | _ :: _, [] => by simp [pyBeqPairs]
  | (ka, va) :: restA, (kb, vb) :: restB => by
      simp [pyBeqPairs, pyBeq_iff va vb, pyBeqPairs_iff restA restB, and_assoc]

end

instance : DecidableEq PyVal := fun a b =>
  decidable_of_iff (pyBeq a b = true) (pyBeq_iff a b)

end PyVal

/-!
Rational arithmetic wrappers.  The Batteries definitions of `Rat.add`,
`Rat.mul`, `Rat.inv` and `Rat.sub` are `@[irreducible]`, which blocks
`decide`-style evaluation of the embedding on concrete inputs, so the
embedded code computes through `Rat.divInt`, and the lemmas below convert
to the ordinary field operations for abstract reasoning.
-/

def qAdd (a b : ℚ) : ℚ := Rat.divInt (a.num * b.den + b.num * a.den) (a.den * b.den)

def qSub (a b : ℚ) : ℚ := Rat.divInt (a.num * b.den - b.num * a.den) (a.den * b.den)

def qMul (a b : ℚ) : ℚ := Rat.divInt (a.num * b.num) (a.den * b.den)

def qDiv (a b : ℚ) : ℚ := Rat.divInt (a.num * b.den) (a.den * b.num)

deriving instance DecidableEq for Except

/-- A Python dictionary body: keys in insertion order. -/
abbrev Dct := List (String × PyVal)

/-- Lookup in a dict body (`d.get(k, default)` for a dict known to be a dict). -/
def dGetD (d : Dct) (k : String) (dflt : PyVal) : PyVal :=
  match d.find? (fun p => p.1 = k) with
  | some p => p.2
  | Option.none => dflt

/-- Python `k in d` membership test for a dict body. -/
def dHasKey (d : Dct) (k : String) : Bool :=
  (d.find? (fun p => p.1 = k)).isSome

/-- Dictionary item assignment `d[k] = v`: overwrite in place when the key
exists, otherwise append at the end (Python insertion-order semantics). -/
def dSetD (d : Dct) (k : String) (v : PyVal) : Dct :=
  if dHasKey d k then d.map (fun p => if p.1 = k then (k, v) else p) else d ++ [(k, v)]

/-- `v.get(k, dflt)` on an arbitrary value: raises `AttributeError` unless
`v` is a dict, exactly as CPython does. -/
def pyGetE (v : PyVal) (k : String) (dflt : PyVal) : Except String PyVal :=
  match v with
  | .dict d => Except.ok (dGetD d k dflt)
  | _ => Except.error "AttributeError"

/-- Convenience accessor for theorem statements: field of a dict value,
`PyVal.none` on anything else. -/
def dGetV (v : PyVal) (k : String) : PyVal :=
  match v with
  | .dict d => dGetD d k PyVal.none
  | _ => PyVal.none

/-- Python truthiness (`bool(v)`). -/
def pyTruthy : PyVal → Bool
  | .none => false
  | .bool b => b
  | .int n => n ≠ 0
  | .float q => q ≠ 0
  | .str s => s ≠ ""
  | .list l => !l.isEmpty
  | .dict d => !d.isEmpty

/-- Numeric view of a value: Python treats `bool`, `int` and `float` as
numbers (`True == 1`); everything else is non-numeric. -/
def pyNum? : PyVal → Option ℚ
  | .bool b => some (if b then 1 else 0)
  | .int n => some (n : ℚ)
  | .float q => some q
  | _ => Option.none

/-- Arithmetic coercion: `TypeError` on non-numeric operands. -/
def pyNumE (v : PyVal) : Except String ℚ :=
  match pyNum? v with
  | some q => Except.ok q
  | Option.none => Except.error "TypeError"

/-- Python `v == 0`: true for numeric values equal to zero, false otherwise
(comparing a str/list/dict/None with `0` yields `False`, not an error). -/
def pyEq0 (v : PyVal) : Bool :=
  match pyNum? v with
  | some q => q = 0
  | Option.none => false

/-- `sum(s.get(k, 0) for s in l)`: `AttributeError` on non-dict elements,
`TypeError` on non-numeric field values, left-to-right. -/
def pySumKey (k : String) : List PyVal → Except String ℚ
  | [] => Except.ok 0
  | s :: rest => do
      let v ← pyGetE s k (PyVal.int 0)
      let q ← pyNumE v
      let r ← pySumKey k rest
      Except.ok (qAdd q r)


/-!
Character-level string helpers.  Core `String` functions such as
`String.toLower` are not kernel-reducible, so the Python string operations
used by the planner are modelled directly on character lists.
-/

/-- ASCII lower-casing of one character (`str.lower` on the inputs here). -/
def charLower (c : Char) : Char :=
  if 'A' ≤ c ∧ c ≤ 'Z' then Char.ofNat (c.toNat + 32) else c

/-- Python `str.lower()`. -/
def strLower (s : String) : String := ⟨s.toList.map charLower⟩

/-- The whitespace set of Python `str.strip()` / `str.split()`. -/
def isWsChar (c : Char) : Bool :=
  c = ' ' ∨ c = '\t' ∨ c = '\n' ∨ c = '\r' ∨ c = '\x0b' ∨ c = '\x0c'

/-- Python `str.strip()`. -/
def strTrim (s : String) : String :=
  ⟨((s.toList.dropWhile isWsChar).reverse.dropWhile isWsChar).reverse⟩

/-- Python slicing `s[:n]`. -/
def strTake (s : String) (n : Nat) : String := ⟨s.toList.take n⟩

/-- `len(s)` for the embedded code. -/
def strLen (s : String) : Nat := s.toList.length

/-- Helper for `len(s.split())`: counts maximal non-whitespace runs. -/
def wordCountAux : List Char → Bool → Nat
  | [], _ => 0
  | c :: cs, inWord =>
      if isWsChar c then wordCountAux cs false
      else (if inWord then 0 else 1) + wordCountAux cs true

/-- `len(s.split())` in Python: the number of whitespace-separated words. -/
def pyWordCount (s : String) : Nat := wordCountAux s.toList false

/-- Decimal digits of a natural number (fuelled by the number itself). -/
def natDigitsAux : Nat → Nat → List Char
  | 0, _ => []
  | fuel + 1, n =>
      let d : Char := Char.ofNat (n % 10 + 48)
      if n < 10 then [d] else natDigitsAux fuel (n / 10) ++ [d]

/-- `str(n)` for a natural number. -/
def natToStr (n : Nat) : String := ⟨natDigitsAux (n + 1) n⟩

/-- `str(i)` for an integer. -/
def intToStr (i : Int) : String :=
  if i < 0 then "-" ++ natToStr i.natAbs else natToStr i.natAbs

/-!
A small model of `json.loads`.  It accepts the JSON fragment the service
actually receives (objects, arrays, strings without escape sequences,
integers and decimal fractions, `null`, `true`, `false`); any other text is
a decode failure, which the embedded code treats exactly like a
`json.JSONDecodeError`.  Recursion is by fuel, one unit per character, which
is enough for every input whose nesting depth is at most its length.
-/

/-- The characters Python JSON treats as insignificant whitespace. -/
def jsonSkipWs : List Char → List Char
  | [] => []
  | c :: cs => if c = ' ' ∨ c = '\n' ∨ c = '\t' ∨ c = '\r' then jsonSkipWs cs else c :: cs

/-- Left brace character, written by code to keep string literals plain. -/
def lbrace : Char := Char.ofNat 123

/-- Right brace character. -/
def rbrace : Char := Char.ofNat 125

/-- Expect a literal run of characters. -/
def jsonExpect : List Char → List Char → Option (List Char)
  | [], cs => some cs
  | p :: ps, c :: cs => if c = p then jsonExpect ps cs else Option.none
  | _ :: _, [] => Option.none

/-- Parse a JSON string body after the opening quote: no escape support. -/
def jsonParseStr : List Char → Option (String × List Char)
  | [] => Option.none
  | c :: cs =>
      if c = '"' then some ("", cs)
      else if c = '\\' then Option.none
      else match jsonParseStr cs with
        | some (s, rest) => some (⟨c :: s.toList⟩, rest)
        | Option.none => Option.none

/-- Collect a run of decimal digits. -/
def jsonDigits : List Char → (List Char × List Char)
  | [] => ([], [])
  | c :: cs =>
      if c.isDigit then
        let (ds, rest) := jsonDigits cs
        (c :: ds, rest)
      else ([], c :: cs)

/-- Natural-number value of a digit run. -/
def digitsVal : List Char → Nat
  | [] => 0
  | c :: cs => (c.toNat - '0'.toNat) * 10 ^ cs.length + digitsVal cs

/-- Parse a JSON number (integer, or decimal fraction as a float). -/
def jsonParseNum (cs : List Char) : Option (PyVal × List Char) :=
  let (neg, cs₁) := match cs with
    | '-' :: rest => (true, rest)
    | _ => (false, cs)
  match jsonDigits cs₁ with
  | ([], _) => Option.none
  | (ds, rest) =>
      let ip : Int := digitsVal ds
      match rest with
      | '.' :: rest₂ =>
          match jsonDigits rest₂ with
          | ([], _) => Option.none
          | (fs, rest₃) =>
              let q : ℚ := qAdd (Rat.divInt ip 1) (Rat.divInt (Int.ofNat (digitsVal fs)) (Int.ofNat (10 ^ fs.length)))
              some (.float (if neg then -q else q), rest₃)
      | _ => some (.int (if neg then -ip else ip), rest)

mutual

def jsonParseVal (fuel : Nat) (cs : List Char) : Option (PyVal × List Char) :=
  match fuel with
  | 0 => Option.none
  | fuel + 1 =>
    match jsonSkipWs cs with
    | [] => Option.none
    | c :: rest =>
      if c = 'n' then (jsonExpect ['u', 'l', 'l'] rest).map (fun r => (PyVal.none, r))
      else if c = 't' then (jsonExpect ['r', 'u', 'e'] rest).map (fun r => (PyVal.bool true, r))
      else if c = 'f' then (jsonExpect ['a', 'l', 's', 'e'] rest).map (fun r => (PyVal.bool false, r))
      else if c = '"' then (jsonParseStr rest).map (fun p => (PyVal.str p.1, p.2))
      else if c = '-' ∨ c.isDigit then jsonParseNum (c :: rest)
      else if c = '[' then
        match jsonSkipWs rest with
        | ']' :: rest₂ => some (.list [], rest₂)
        | rest₂ => (jsonParseElems fuel rest₂).map (fun p => (PyVal.list p.1, p.2))
      else if c = lbrace then
        match jsonSkipWs rest with
        | d :: rest₂ =>
            if d = rbrace then some (.dict [], rest₂)
            else (jsonParseMembers fuel (d :: rest₂)).map (fun p => (PyVal.dict p.1, p.2))
        | [] => Option.none
      else Option.none

def jsonParseElems (fuel : Nat) (cs : List Char) : Option (List PyVal × List Char) :=
  match fuel with
  | 0 => Option.none
  | fuel + 1 =>
    match jsonParseVal fuel cs with
    | Option.none => Option.none
    | some (v, rest) =>
      match jsonSkipWs rest with
      | ',' :: rest₂ =>
          match jsonParseElems fuel rest₂ with
          | some (vs, rest₃) => some (v :: vs, rest₃)
          | Option.none => Option.none
      | ']' :: rest₂ => some ([v], rest₂)
      | _ => Option.none

def jsonParseMembers (fuel : Nat) (cs : List Char) : Option (Dct × List Char) :=
  match fuel with
  | 0 => Option.none
  | fuel + 1 =>
    match jsonSkipWs cs with
    | '"' :: rest =>
      match jsonParseStr rest with
      | Option.none => Option.none
      | some (k, rest₂) =>
        match jsonSkipWs rest₂ with
        | ':' :: rest₃ =>
          match jsonParseVal fuel rest₃ with
          | Option.none => Option.none
          | some (v, rest₄) =>
            match jsonSkipWs rest₄ with
            | ',' :: rest₅ =>
                match jsonParseMembers fuel rest₅ with
                | some (ms, rest₆) => some ((k, v) :: ms, rest₆)
                | Option.none => Option.none
            | d :: rest₅ =>
                if d = rbrace then some ([(k, v)], rest₅) else Option.none
            | [] => Option.none
        | _ => Option.none
    | _ => Option.none

end

/-- Model of `json.loads`: the whole text must be one value plus trailing
whitespace; anything else fails like a `JSONDecodeError`. -/
def jsonLoads (s : String) : Option PyVal :=
  match jsonParseVal (s.toList.length + 1) s.toList with
  | some (v, rest) => if jsonSkipWs rest = [] then some v else Option.none
  | Option.none => Option.none

/-!
Embedding of `GarminDataNormalizer` (src/data/normalizer.py).
-/

/-- `_empty_activity` (normalizer.py lines 457-474), field for field. -/
def empty_activity : PyVal :=
  .dict [("activity_id", .none), ("name", .str "Unknown"), ("date", .none),
         ("type", .str "running"), ("distance_km", .int 0), ("duration_min", .int 0),
         ("avg_pace_min_per_km", .int 0), ("avg_speed_kmh", .int 0), ("avg_hr", .int 0),
         ("max_hr", .int 0), ("calories", .int 0), ("avg_cadence", .int 0),
         ("training_effect", .int 0), ("laps", .list [])]

/-- The input-resolution prefix of `normalize_activity` (lines 36-59):
falsy input or failed decoding resolves to `none` (the empty Activity);
`raw_text` holding a non-string raises `TypeError` (the `json.loads` call
there catches only `JSONDecodeError` and `KeyError`); the result is the
dict body otherwise.  At most two decode attempts, as in the source. -/
def resolveRaw (raw : PyVal) : Except String (Option Dct) :=
  if pyTruthy raw = false then Except.ok Option.none
  else
    let step1 : Option PyVal :=
      match raw with
      | .str s => jsonLoads s
      | v => some v
    match step1 with
    | Option.none => Except.ok Option.none
    | some v =>
      match v with
      | .dict d =>
          if dHasKey d "raw_text" then
            match dGetD d "raw_text" PyVal.none with
            | .str s =>
                match jsonLoads s with
                | some (.dict d₂) => Except.ok (some d₂)
                | some _ => Except.ok Option.none
                | Option.none => Except.ok Option.none
            | _ => Except.error "TypeError"
          else Except.ok (some d)
      | _ => Except.ok Option.none

/-- `get_splits_safely` (normalizer.py lines 95-127): total, returns `[]`
on every unexpected shape. -/
def get_splits_safely (data : PyVal) : List PyVal :=
  let data' : Option PyVal :=
    match data with
    | .str s => jsonLoads s
    | v => some v
  match data' with
  | some (.dict dd) =>
      match dGetD dd "lapDTOs" (.list []) with
      | .list l => l
      | .str s =>
          match jsonLoads s with
          | some (.list l) => l
          | _ => []
      | _ => []
  | _ => []

/-- The defensive per-split filter of `normalize_activity` (lines 144-159):
dicts are kept, strings are kept when they decode (whatever they decode to,
as in the source), everything else is dropped. -/
def validSplits : List PyVal → List PyVal
  | [] => []
  | s :: rest =>
      match s with
      | .dict d => .dict d :: validSplits rest
      | .str t =>
          match jsonLoads t with
          | some v => v :: validSplits rest
          | Option.none => validSplits rest
      | _ => validSplits rest

/-- `_format_pace` (lines 440-455): minutes and zero-padded seconds. -/
def format_pace (pace : ℚ) : String :=
  if pace ≤ 0 then "N/A"
  else
    let minutes : Int := ⌊pace⌋
    let seconds : Int := ⌊qMul (qSub pace (minutes : ℚ)) 60⌋
    intToStr minutes ++ ":" ++ (if seconds < 10 then "0" ++ intToStr seconds else intToStr seconds)

/-- The per-entry resolution step of `_normalize_laps` (lines 221-231):
a string entry is JSON-decoded, and anything that is not a dict after
that is skipped. -/
def lapResolve (lap : PyVal) : Option Dct :=
  match lap with
  | .dict ld => some ld
  | .str s =>
      match jsonLoads s with
      | some (.dict ld) => some ld
      | _ => Option.none
  | _ => Option.none

/-- The loop body of `_normalize_laps` (lines 218-260) with the running
`enumerate(lap_dtos, 1)` counter `i`: unresolvable entries are skipped,
but the counter advances on every raw entry, so lap numbering follows the
raw index.  Non-numeric `distance`/`duration` raise `TypeError`, as the
divisions in the source do. -/
def normalizeLapsAux (i : Int) : List PyVal → Except String (List PyVal)
  | [] => Except.ok []
  | lap :: rest =>
      match lapResolve lap with
      | Option.none => normalizeLapsAux (i + 1) rest
      | some ld => do
          let distance_m := dGetD ld "distance" (.int 0)
          let duration_s := dGetD ld "duration" (.int 0)
          let dq ← pyNumE distance_m
          let uq ← pyNumE duration_s
          let paceQ : ℚ := qDiv (qDiv uq 60) (qDiv dq 1000)
          let lapDict : PyVal :=
            .dict [("lap_number", .int i),
                   ("distance_km", .float (qDiv dq 1000)),
                   ("distance_m", distance_m),
                   ("duration_min", .float (qDiv uq 60)),
                   ("duration_s", duration_s),
                   ("avg_hr", dGetD ld "averageHR" (.int 0)),
                   ("max_hr", dGetD ld "maxHR" (.int 0)),
                   ("avg_cadence", dGetD ld "averageRunCadence" (.int 0)),
                   ("max_cadence", dGetD ld "maxRunCadence" (.int 0)),
                   ("elevation_gain", dGetD ld "elevationGain" (.int 0)),
                   ("elevation_loss", dGetD ld "elevationLoss" (.int 0)),
                   ("pace_min_per_km", if 0 < dq ∧ 0 < uq then .float paceQ else .int 0),
                   ("pace_formatted", if 0 < dq ∧ 0 < uq then .str (format_pace paceQ)
                                      else .str "N/A")]
          let restLaps ← normalizeLapsAux (i + 1) rest
          Except.ok (lapDict :: restLaps)

/-- `_normalize_laps` starts its `enumerate` counter at 1. -/
def normalize_laps (lap_dtos : List PyVal) : Except String (List PyVal) :=
  normalizeLapsAux 1 lap_dtos

/-- The distance/duration/laps block of `normalize_activity`
(lines 140-175), returning the stored values together with their rational
readings (the stored value is `.int 0` exactly where the source assigns the
literal `0`, and a float where it divides). -/
def coreTotals (d : Dct) : Except String (PyVal × ℚ × PyVal × ℚ × List PyVal) :=
  let summary : Dct :=
    match dGetD d "summaryDTO" (.dict []) with
    | .dict sd => sd
    | _ => []
  let distance := dGetD summary "distance" (.int 0)
  let duration := dGetD summary "duration" (.int 0)
  let splitsData := dGetD d "splits_data" (.dict [])
  let splits :=
    if pyTruthy splitsData then get_splits_safely splitsData
    else get_splits_safely (.dict d)
  if pyEq0 distance || pyEq0 duration then
    let vs := validSplits splits
    if vs.isEmpty then Except.ok (.int 0, 0, .int 0, 0, [])
    else do
      let sd ← pySumKey "distance" vs
      let su ← pySumKey "duration" vs
      let laps ← normalize_laps vs
      Except.ok (.float (qDiv sd 1000), qDiv sd 1000, .float (qDiv su 60), qDiv su 60, laps)
  else do
    let dq ← pyNumE distance
    let uq ← pyNumE duration
    if splits.isEmpty then
      Except.ok (.float (qDiv dq 1000), qDiv dq 1000, .float (qDiv uq 60), qDiv uq 60, [])
    else do
      let laps ← normalize_laps splits
      Except.ok (.float (qDiv dq 1000), qDiv dq 1000, .float (qDiv uq 60), qDiv uq 60, laps)

/-- The body of `normalize_activity` after input resolution (lines 61-206):
header fields, totals, the division-guarded pace/speed pair, and the
remaining `summaryDTO` metrics in the source insertion order. -/
def normalizeResolved (d : Dct) : Except String PyVal := do
  let activityTypeDto := dGetD d "activityTypeDTO" (.dict [])
  let activityType : PyVal :=
    match activityTypeDto with
    | .dict td => dGetD td "typeKey" (.str "running")
    | _ => .str "running"
  let summary : Dct :=
    match dGetD d "summaryDTO" (.dict []) with
    | .dict sd => sd
    | _ => []
  let (distVal, dk, durVal, du, laps) ← coreTotals d
  let paceVal : PyVal := if 0 < dk ∧ 0 < du then .float (qDiv du dk) else .int 0
  let speedVal : PyVal := if 0 < dk ∧ 0 < du then .float (qDiv dk (qDiv du 60)) else .int 0
  Except.ok (.dict
    [("activity_id", dGetD d "activityId" .none),
     ("name", dGetD d "activityName" (.str "Unnamed Run")),
     ("date", dGetD d "startTimeGMT" .none),
     ("type", activityType),
     ("description", dGetD d "description" (.str "")),
     ("distance_km", distVal),
     ("duration_min", durVal),
     ("laps", .list laps),
     ("avg_pace_min_per_km", paceVal),
     ("avg_speed_kmh", speedVal),
     ("avg_hr", dGetD summary "averageHR" (.int 0)),
     ("max_hr", dGetD summary "maxHR" (.int 0)),
     ("min_hr", dGetD summary "minHR" (.int 0)),
     ("calories", dGetD summary "calories" (.int 0)),
     ("avg_cadence", dGetD summary "averageRunCadence" (.int 0)),
     ("max_cadence", dGetD summary "maxRunCadence" (.int 0)),
     ("avg_power", dGetD summary "averagePower" (.int 0)),
     ("max_power", dGetD summary "maxPower" (.int 0)),
     ("training_effect", dGetD summary "trainingEffect" (.int 0)),
     ("anaerobic_training_effect", dGetD summary "anaerobicTrainingEffect" (.int 0)),
     ("avg_speed_ms", dGetD summary "averageSpeed" (.int 0)),
     ("max_speed_ms", dGetD summary "maxSpeed" (.int 0))])

/-- `normalize_activity` (normalizer.py lines 25-206). -/
def normalize_activity (raw : PyVal) : Except String PyVal := do
  match ← resolveRaw raw with
  | Option.none => Except.ok empty_activity
  | some d => normalizeResolved d

/-- `normalize_hr_zones` (lines 262-310).  The source iterates the input
directly with no defensive decoding: a string or dict input yields string
elements/keys whose `.get` raises `AttributeError`; other non-sequences
raise `TypeError`; a string element inside a list raises `AttributeError`.
The per-zone loop also needs `secsInZone` numeric (for `/60` and the
running total).  Zones are paired with their numeric time so the
percentage pass can divide. -/
def hrZoneLoop : List PyVal → Except String (List (PyVal × ℚ) × ℚ)
  | [] => Except.ok ([], 0)
  | z :: rest => do
      let zoneNum ← pyGetE z "zoneNumber" (.int 0)
      let timeInZone ← pyGetE z "secsInZone" (.int 0)
      let lowBoundary ← pyGetE z "zoneLowBoundary" (.int 0)
      let tq ← pyNumE timeInZone
      let zdict : PyVal :=
        .dict [("zone_number", zoneNum), ("time_seconds", timeInZone),
               ("time_minutes", .float (qDiv tq 60)), ("low_boundary_bpm", lowBoundary),
               ("percentage", .int 0)]
      let (zs, tot) ← hrZoneLoop rest
      Except.ok ((zdict, tq) :: zs, qAdd tq tot)

def normalize_hr_zones (raw_zones : PyVal) : Except String PyVal :=
  if pyTruthy raw_zones = false then
    Except.ok (.dict [("zones", .list []), ("total_time_s", .int 0),
                      ("has_complete_data", .bool false)])
  else
    match raw_zones with
    | .list zs => do
        let (zones, total) ← hrZoneLoop zs
        let zones' : List PyVal :=
          if 0 < total then
            zones.map (fun p => match p.1 with
              | .dict zd => .dict (dSetD zd "percentage" (.float (qMul (qDiv p.2 total) 100)))
              | v => v)
          else zones.map (fun p => p.1)
        Except.ok (.dict [("zones", .list zones'), ("total_time_s", .float total),
                          ("total_time_min", .float (qDiv total 60)),
                          ("has_complete_data", .bool (decide (5 ≤ zones.length)))])
    | .str _ => Except.error "AttributeError"
    | .dict _ => Except.error "AttributeError"
    | _ => Except.error "TypeError"

/-- `normalize_weather` (lines 312-336). -/
def normalize_weather (raw : PyVal) : Except String PyVal :=
  if pyTruthy raw = false then Except.ok (.dict [("available", .bool false)])
  else do
    let temp ← pyGetE raw "temp" .none
    let tempC ←
      if temp ≠ PyVal.none then do
        let base := if pyTruthy temp then temp else .int 0
        let q ← pyNumE base
        pure (PyVal.float (qDiv (qMul (qSub q 32) 5) 9))
      else pure PyVal.none
    let apparent ← pyGetE raw "apparentTemp" .none
    let apparentC ←
      if apparent ≠ PyVal.none then do
        let base := if pyTruthy apparent then apparent else .int 0
        let q ← pyNumE base
        pure (PyVal.float (qDiv (qMul (qSub q 32) 5) 9))
      else pure PyVal.none
    let humidity ← pyGetE raw "relativeHumidity" .none
    let windSpeed ← pyGetE raw "windSpeed" .none
    let windDir ← pyGetE raw "windDirectionCompassPoint" (.str "N/A")
    let dewPoint ← pyGetE raw "dewPoint" .none
    let wtd ← pyGetE raw "weatherTypeDTO" .none
    let condition ←
      if pyTruthy wtd then do
        let wtd₂ ← pyGetE raw "weatherTypeDTO" (.dict [])
        pyGetE wtd₂ "desc" (.str "Unknown")
      else pure PyVal.none
    Except.ok (.dict
      [("available", .bool true), ("temp_f", temp), ("temp_c", tempC),
       ("apparent_temp_f", apparent), ("apparent_temp_c", apparentC),
       ("humidity", humidity), ("wind_speed_mph", windSpeed),
       ("wind_direction", windDir), ("dew_point_f", dewPoint),
       ("condition", condition)])

/-!
Embedding of `FlexibleRunningAgent` (src/agents/base_agent.py).  The MCP
client is the external collaborator: it is modelled as a record of total
response functions (`splits1`/`splits2` are the first and the corrective
second `get_activity_splits` response for an id, so a re-fetch that
returns different data is expressible).
-/

/-- The upstream activity source consumed by `gather_data`. -/
structure MCPClient where
  activities_list : List PyVal
  details : PyVal → PyVal
  splits1 : PyVal → PyVal
  splits2 : PyVal → PyVal
  hr_zones : PyVal → PyVal
  weather : PyVal → PyVal

/-- `_normalize_activity_data` (base_agent.py lines 171-212): merges the
splits payload into the activity dict (`raw_activity["splits_data"] =
raw_splits`, a `TypeError` when the activity payload is truthy but not a
dict), then normalizes activity, HR zones and weather; every exception is
caught and surfaces as `None`. -/
def normalize_activity_data (rawAct rawSplits rawHr rawWeather : PyVal) : PyVal :=
  let attempt : Except String PyVal := do
    let rawAct' ←
      if pyTruthy rawSplits then
        match rawAct with
        | .dict d => Except.ok (PyVal.dict (dSetD d "splits_data" rawSplits))
        | .none => Except.error "TypeError"
        | .bool _ => Except.error "TypeError"
        | .int _ => Except.error "TypeError"
        | .float _ => Except.error "TypeError"
        | .str _ => Except.error "TypeError"
        | .list _ => Except.error "TypeError"
      else Except.ok rawAct
    let act ← normalize_activity rawAct'
    let hr ← normalize_hr_zones rawHr
    let wx ← normalize_weather rawWeather
    Except.ok (.dict [("activity", act), ("hr_zones", hr), ("weather", wx)])
  match attempt with
  | Except.ok v => v
  | Except.error _ => PyVal.none

/-- `_gather_single_activity_data` (lines 122-169): four sequential
fetches, then normalization; the keys mirror the source dict. -/
def gather_single_activity_data (cl : MCPClient) (aid : PyVal) : PyVal :=
  let rawAct := cl.details aid
  let rawSplits := cl.splits1 aid
  let rawHr := cl.hr_zones aid
  let rawWeather := cl.weather aid
  let rawAct' : PyVal :=
    if pyTruthy rawSplits then
      match rawAct with
      | .dict d => .dict (dSetD d "splits_data" rawSplits)
      | v => v
    else rawAct
  .dict [("activity_id", aid), ("raw_activity", rawAct'), ("raw_splits", rawSplits),
         ("raw_hr_zones", rawHr), ("raw_weather", rawWeather),
         ("normalized", normalize_activity_data rawAct rawSplits rawHr rawWeather)]

/-- `_is_data_incomplete` (lines 214-244).  By construction every value it
is applied to is a dict produced by `gather_single_activity_data`, whose
`normalized` entry is either `None` or the normalizer output dict, so the
plain `.get` lookups cannot raise here. -/
def is_data_incomplete (ad : PyVal) : Bool :=
  match ad with
  | .dict d =>
      if dHasKey d "error" then true
      else
        let normalized := dGetD d "normalized" (.dict [])
        if pyTruthy normalized = false then true
        else
          let activity := dGetV normalized "activity"
          if pyEq0 (dGetV activity "distance_km") then true
          else if pyEq0 (dGetV activity "duration_min") then true
          else if pyTruthy (dGetV activity "laps") = false then true
          else false
  | _ => true

/-- `_correct_incomplete_data` (lines 246-272): the one corrective step —
re-fetch the splits and re-normalize — happens only when the stored
`raw_splits` is falsy; otherwise the data is returned untouched. -/
def correct_incomplete_data (cl : MCPClient) (aid : PyVal) (ad : PyVal) : PyVal :=
  match ad with
  | .dict d =>
      if pyTruthy (dGetD d "raw_splits" .none) then ad
      else
        let newSplits := cl.splits2 aid
        let d₁ := dSetD d "raw_splits" newSplits
        let rawAct := dGetD d₁ "raw_activity" .none
        let normalized :=
          normalize_activity_data rawAct newSplits
            (dGetD d₁ "raw_hr_zones" .none) (dGetD d₁ "raw_weather" .none)
        let rawAct' : PyVal :=
          if pyTruthy newSplits then
            match rawAct with
            | .dict dd => .dict (dSetD dd "splits_data" newSplits)
            | v => v
          else rawAct
        let d₂ := dSetD d₁ "raw_activity" rawAct'
        .dict (dSetD d₂ "normalized" normalized)
  | _ => ad

/-- One accepted entry of the gathering loop: fetch, check, correct at most
once (lines 104-111 of `gather_data`). -/
def processEntry (cl : MCPClient) (aid : PyVal) : PyVal :=
  let ad := gather_single_activity_data cl aid
  if is_data_incomplete ad then correct_incomplete_data cl aid ad else ad

/-- The `for activity_summary in activities_list` loop of `gather_data`
(lines 95-112).  A non-dict list entry makes `activity_summary.get` raise;
the surrounding `try` turns that into an `error` annotation while keeping
the activities gathered so far. -/
def gatherLoop (cl : MCPClient) : List PyVal → Nat → Nat → List PyVal →
    List PyVal × Option String
  | [], _, _, acc => (acc, Option.none)
  | s :: rest, processed, target, acc =>
      if target ≤ processed then (acc, Option.none)
      else
        match s with
        | .dict d =>
            let aid := dGetD d "activityId" .none
            if pyTruthy aid = false then gatherLoop cl rest processed target acc
            else gatherLoop cl rest (processed + 1) target (acc ++ [processEntry cl aid])
        | _ => (acc, some "AttributeError")

/-- `gather_data` (base_agent.py lines 58-120); `scope` is the agent's
`data_scope` field.  The listing itself is the `activities_list` the
client returns for `type="running", limit = 5 * num_activities`; an empty
listing short-circuits with an empty dataset. -/
def gather_data (cl : MCPClient) (user_request : String) (scope : String)
    (num_activities : Nat) : PyVal :=
  if cl.activities_list.isEmpty then
    .dict [("activities", .list []), ("request", .str user_request), ("scope", .str scope)]
  else
    let (acts, err) := gatherLoop cl cl.activities_list 0 num_activities []
    match err with
    | Option.none =>
        .dict [("activities", .list acts), ("request", .str user_request),
               ("scope", .str scope)]
    | some e =>
        .dict [("activities", .list acts), ("request", .str user_request),
               ("scope", .str scope), ("error", .str e)]

/-- The activities sequence of a gathered dataset (for statements). -/
def activitiesOf (g : PyVal) : List PyVal :=
  match dGetV g "activities" with
  | .list l => l
  | _ => []

/-!
Embedding of `CoachQAAgent._detect_follow_up` and `_plan_action`
(src/agents/coach_qa.py).  The conversation context is `Optional[Dict]` in
the source, modelled as `Option Dct`; the language-model call is the
external collaborator, so its `response` value is a parameter and the
prompt text it receives is only checked for the exceptions its
construction can raise.
-/

/-- Does one character list start with another (Python `str.startswith`). -/
def charsStartWith (needle hay : List Char) : Bool :=
  match needle, hay with
  | [], _ => true
  | _ :: _, [] => false
  | c :: more, h :: rest => c = h && charsStartWith more rest

/-- Substring containment (Python `needle in hay`). -/
def charsContain (needle : List Char) : List Char → Bool
  | [] => charsStartWith needle []
  | c :: rest => charsStartWith needle (c :: rest) || charsContain needle rest

def strContains (hay needle : String) : Bool :=
  charsContain needle.toList hay.toList

def strStartsWith (hay needle : String) : Bool :=
  charsStartWith needle.toList hay.toList

/-- The continuation words of `_detect_follow_up` (coach_qa.py line 36). -/
def followupStarters : List String :=
  ["and", "also", "what about", "how about", "then", "so", "now", "ok", "okay", "sure"]

/-- The referential tokens of `_detect_follow_up` (line 43). -/
def referentialTokens : List String :=
  ["that", "it", "this", "those", "same", "instead"]

/-- `_detect_follow_up` (coach_qa.py lines 29-47). -/
def detect_follow_up (question : String) (context : Option Dct) : Bool :=
  match context with
  | Option.none => false
  | some c =>
      if pyTruthy (.dict c) = false then false
      else
        match dGetD c "recent_messages" .none with
        | .list msgs =>
            if msgs.isEmpty then false
            else
              let lowerQ := strTrim (strLower question)
              if followupStarters.any (fun st => strStartsWith lowerQ st) then true
              else if pyWordCount lowerQ ≤ 6 then true
              else if referentialTokens.any (fun tk => strContains lowerQ tk) then true
              else if pyTruthy (dGetD c "last_intent" .none)
                   || pyTruthy (dGetD c "summary" .none)
                   || pyTruthy (dGetD c "last_analysis_text" .none) then
                decide (pyWordCount lowerQ ≤ 10)
              else false
        | _ => false

/-- The coachable-topic whitelist of `_plan_action` (lines 216-220). -/
def coachableTerms : List String :=
  ["easy pace", "tempo pace", "threshold pace", "expected time", "race time",
   "5k", "10k", "half", "half marathon", "marathon", "training load",
   "recommend my next run", "next run"]

/-- `is_coachable` (line 222): any whitelist term occurs in the lowered question. -/
def is_coachable (question : String) : Bool :=
  coachableTerms.any (fun term => strContains (strLower question) term)

/-- Python slicing `v[:400]`, total on strings and lists, `TypeError` on
other truthy values (the guard in the source only checks truthiness). -/
def pySlice400 (v : PyVal) : Except String PyVal :=
  match v with
  | .str s => Except.ok (.str (strTake s 400))
  | .list l => Except.ok (.list (l.take 400))
  | _ => Except.error "TypeError"

/-- The context-hint construction of `_plan_action` (lines 224-242).  The
hint text itself only feeds the model prompt (abstracted into the
`response` parameter), so the model records exactly the exceptions the
construction can raise: slicing `summary[:400]` or
`last_analysis_text[:400]` on a truthy unsliceable value. -/
def contextHintCheck (context : Option Dct) : Except String Unit :=
  match context with
  | Option.none => Except.ok ()
  | some c =>
      if pyTruthy (.dict c) = false then Except.ok ()
      else do
        let s := dGetD c "summary" .none
        let _ ← if pyTruthy s then pySlice400 s else pure (PyVal.none)
        let la := dGetD c "last_analysis_text" .none
        let _ ← if pyTruthy la then pySlice400 la else pure (PyVal.none)
        Except.ok ()

/-- The parse-and-default step of `_plan_action` (lines 254-270): extract
`content`, parse it when it is a string (a decode failure yields `{}`, but
text parsing to a non-object reaches `plan.get` and raises
`AttributeError`), validate `action`, default `needs_user_info` and
`reason`. -/
def baseClassify (response : PyVal) : Except String (String × String × List PyVal) := do
  let content : PyVal :=
    match response with
    | .dict rd => dGetD rd "content" .none
    | v => v
  let plan : PyVal :=
    match content with
    | .str s =>
        match jsonLoads s with
        | some v => v
        | Option.none => .dict []
    | _ => .dict []
  let actionV ← pyGetE plan "action" .none
  let action : String :=
    match actionV with
    | .str s =>
        if s = "answer" ∨ s = "ask_clarifying" ∨ s = "decline_non_running" then s
        else "answer"
    | _ => "answer"
  let nuiV ← pyGetE plan "needs_user_info" .none
  let needsUserInfo : List PyVal :=
    match nuiV with
    | .list l => l
    | _ => []
  let reasonV ← pyGetE plan "reason" .none
  let reason : String :=
    match reasonV with
    | .str s => s
    | _ => "Defaulted to answer."
  Except.ok (action, reason, needsUserInfo)

/-- The running-domain keywords of `_plan_action` (lines 278-281). -/
def domainKeywords : List String :=
  ["vo2", "v02", "tag", "tagged", "training effect", "heart rate", "hr",
   "pace", "split", "cadence", "garmin", "run", "workout", "activity", "zone"]

/-- The follow-up override of `_plan_action` (lines 273-275). -/
def followupOverride (question : String) (c : Dct) (a r : String) : String × String :=
  if detect_follow_up question (some c) && a ≠ "decline_non_running" then
    ("answer", "Follow-up question with context.")
  else (a, r)

/-- The domain-keyword and short-message overrides of `_plan_action`
(lines 276-289), active only when the context indicates an existing
running conversation. -/
def keywordShortOverride (question : String) (c : Dct) (a r : String) : String × String :=
  let hasRunningContext :=
    pyTruthy (dGetD c "last_intent" .none)
    || pyTruthy (dGetD c "last_analysis_text" .none)
    || pyTruthy (dGetD c "summary" .none)
  if hasRunningContext then
    let lowerQ := strLower question
    let (a', r') :=
      if domainKeywords.any (fun k => strContains lowerQ k) then
        ("answer", "Context indicates running follow-up.")
      else (a, r)
    if strLen (strTrim lowerQ) ≤ 3 then ("answer", "Short follow-up with context.")
    else (a', r')
  else (a, r)

/-- The profile-availability override of `_plan_action` (lines 291-299).
`runner_profile.get` on a truthy non-dict raises, as in CPython. -/
def personaOverride (question : String) (c : Dct) (a r : String) :
    Except String (String × String) :=
  match dGetD c "persona_profile" .none with
  | .dict pd => do
      let rpv := dGetD pd "runner_profile" .none
      let rp := if pyTruthy rpv then rpv else .dict []
      let rhv := dGetD pd "runner_history" .none
      let rh := if pyTruthy rhv then rhv else .dict []
      let prof ← pyGetE rp "proficiency" .none
      let hasProfile ←
        if pyTruthy prof then pure true
        else do
          let score ← pyGetE rp "score" .none
          pure (pyTruthy score)
      let summ ← pyGetE rh "summary" .none
      let hasHistory := pyTruthy summ
      if is_coachable question && (hasProfile || hasHistory) then
        Except.ok ("answer", "Coachable question with profile/history available.")
      else Except.ok (a, r)
  | _ => Except.ok (a, r)

/-- The `if context:` override block of `_plan_action` (lines 272-299):
follow-up, domain-keyword, short-message and profile overrides, in source
order. -/
def contextOverrides (question : String) (context : Option Dct)
    (action reason : String) : Except String (String × String) :=
  match context with
  | Option.none => Except.ok (action, reason)
  | some c =>
      if pyTruthy (.dict c) = false then Except.ok (action, reason)
      else
        let (a₁, r₁) := followupOverride question c action reason
        let (a₂, r₂) := keywordShortOverride question c a₁ r₁
        personaOverride question c a₂ r₂

/-- `_plan_action` (coach_qa.py lines 215-309) with the model response as
the oracle parameter: context hint, base classification, context
overrides, the final coachable-topic override, then truncation of
`reason` to 200 characters and `needs_user_info` to 5 items. -/
def plan_action (question : String) (context : Option Dct) (response : PyVal) :
    Except String PyVal := do
  let _ ← contextHintCheck context
  let (a₀, r₀, needsUserInfo) ← baseClassify response
  let (a₁, r₁) ← contextOverrides question context a₀ r₀
  let (a₂, r₂) :=
    if is_coachable question && a₁ ≠ "decline_non_running" then
      ("answer", "Coachable question: answer best-effort.")
    else (a₁, r₁)
  Except.ok (.dict [("action", .str a₂), ("reason", .str (strTake r₂ 200)),
                    ("needs_user_info", .list (needsUserInfo.take 5))])

/-!
Definitions supporting the claim statements: resolvability predicates,
context well-formedness, and the concrete inputs used by counterexamples,
code-behaviour evaluations and witnesses.
-/

/-- A raw lap entry `_normalize_laps` keeps: a dict, or a string that
decodes to a dict. -/
def lapResolvable (v : PyVal) : Bool := (lapResolve v).isSome

/-- The 1-based raw positions of the resolvable entries of a lap list. -/
def resolvedPositionsAux (i : Int) : List PyVal → List Int
  | [] => []
  | v :: rest =>
      if lapResolvable v then i :: resolvedPositionsAux (i + 1) rest
      else resolvedPositionsAux (i + 1) rest

def resolvedPositions (l : List PyVal) : List Int := resolvedPositionsAux 1 l

/-- The numeric reading of a raw lap entry's `distance` field (for the
claim about recomputed totals). -/
def lap_distance_num (s : PyVal) : Option ℚ :=
  match s with
  | .dict sd => pyNum? (dGetD sd "distance" (.int 0))
  | _ => Option.none

/-- A truthy value survives the `[:400]` slice (strings and lists do). -/
def sliceOk (v : PyVal) : Bool :=
  match v with
  | .str _ => true
  | .list _ => true
  | _ => !pyTruthy v

/-- A value that is a dict whenever it is truthy (so the planner's
`(... or {}).get` pattern lands on a dict). -/
def dictIfTruthy (v : PyVal) : Bool :=
  match v with
  | .dict _ => true
  | _ => !pyTruthy v

/-- The `persona_profile` shape on which the profile override of
`_plan_action` does not raise. -/
def personaOk (pp : PyVal) : Bool :=
  match pp with
  | .dict pd =>
      dictIfTruthy (dGetD pd "runner_profile" .none) &&
      dictIfTruthy (dGetD pd "runner_history" .none)
  | _ => true

/-- Contexts on which `_plan_action`'s own context handling cannot raise:
the hint slices succeed and the persona lookups stay on dicts. -/
def ctxClean : Option Dct → Bool
  | Option.none => true
  | some c =>
      if pyTruthy (.dict c) = false then true
      else
        sliceOk (dGetD c "summary" .none) &&
        sliceOk (dGetD c "last_analysis_text" .none) &&
        personaOk (dGetD c "persona_profile" .none)

/-- The `test_invalid_lap_metrics` payload of the repository's own test
suite (tests/test_normalizer_defensive.py): summary present, one lap with
a non-numeric `distance`, one with a `None` duration, one valid. -/
def invalidLapPayload : PyVal :=
  .dict [("activityId", .int 12348), ("activityName", .str "Test Run"),
         ("startTimeGMT", .str "2024-01-01T10:00:00Z"),
         ("activityTypeDTO", .dict [("typeKey", .str "running")]),
         ("summaryDTO", .dict [("distance", .int 5000), ("duration", .int 1500)]),
         ("lapDTOs", .list [.dict [("distance", .str "invalid"), ("duration", .int 300)],
                            .dict [("distance", .int 1000), ("duration", .none)],
                            .dict [("distance", .int 1000), ("duration", .int 300)]])]

/-- A summary-present payload whose lap list holds one unresolvable entry
(the integer `5`) before one valid lap. -/
def gappedLapPayload : PyVal :=
  .dict [("summaryDTO", .dict [("distance", .int 5000), ("duration", .int 1500)]),
         ("lapDTOs", .list [.int 5, .dict [("distance", .int 1000), ("duration", .int 300)]])]

/-- A payload without a summary whose two valid laps hold distances
`-1000` and `1000` metres: the lap sums cancel. -/
def cancellingLapPayload : PyVal :=
  .dict [("lapDTOs", .list [.dict [("distance", .int (-1000)), ("duration", .int 60)],
                            .dict [("distance", .int 1000), ("duration", .int 60)]])]

/-- The string-encoded HR zone entry of the repository's own
`test_string_hr_zone_entries` test. -/
def stringZoneEntry : String :=
  "\x7b\"zoneNumber\": 1, \"secsInZone\": 120, \"zoneLowBoundary\": 100\x7d"

/-- An upstream feed whose first (and only) listing entry is a cycling
activity with full, valid data. -/
def cyclingClient : MCPClient :=
  { activities_list := [.dict [("activityId", .int 7), ("activityType", .str "cycling")]]
    details := fun _ => .dict [("activityTypeDTO", .dict [("typeKey", .str "cycling")]),
                               ("summaryDTO", .dict [("distance", .int 10000),
                                                     ("duration", .int 1800)])]
    splits1 := fun _ => .dict [("lapDTOs", .list [.dict [("distance", .int 1000),
                                                         ("duration", .int 300)]])]
    splits2 := fun _ => .dict [("lapDTOs", .list [.dict [("distance", .int 1000),
                                                         ("duration", .int 300)]])]
    hr_zones := fun _ => .list []
    weather := fun _ => .dict [] }

/-- An upstream feed whose detail and first splits responses are useless
(zero totals, empty lap list) while the corrective splits response would
carry a full lap: only a re-fetch can complete the activity. -/
def staleSplitsClient : MCPClient :=
  { activities_list := [.dict [("activityId", .int 1)]]
    details := fun _ => .dict [("summaryDTO", .dict [("distance", .int 0),
                                                     ("duration", .int 0)])]
    splits1 := fun _ => .dict [("lapDTOs", .list [])]
    splits2 := fun _ => .dict [("lapDTOs", .list [.dict [("distance", .int 1000),
                                                         ("duration", .int 300)]])]
    hr_zones := fun _ => .list []
    weather := fun _ => .dict [] }

/-- A planner response whose content is the valid JSON object for a
`decline_non_running` classification. -/
def declineResponse : PyVal :=
  .dict [("content",
          .str "\x7b\"action\": \"decline_non_running\", \"reason\": \"off topic\", \"needs_user_info\": []\x7d")]

/-- A context carrying only a last intent (no recent messages). -/
def lastIntentCtx : Dct := [("last_intent", .str "last_run")]

/-!
Theorems.  First the arithmetic bridge lemmas, then the helper lemmas and
the claim theorems.
-/

theorem qAdd_eq (a b : ℚ) : qAdd a b = a + b := by
  have ha : ((a.den : ℚ)) ≠ 0 := by exact_mod_cast a.den_ne_zero
  have hb : ((b.den : ℚ)) ≠ 0 := by exact_mod_cast b.den_ne_zero
  rw [qAdd, Rat.divInt_eq_div]
  push_cast
  conv_rhs => rw [← Rat.num_div_den a, ← Rat.num_div_den b]
  rw [div_add_div _ _ ha hb]
  ring_nf

theorem qSub_eq (a b : ℚ) : qSub a b = a - b := by
  have ha : ((a.den : ℚ)) ≠ 0 := by exact_mod_cast a.den_ne_zero
  have hb : ((b.den : ℚ)) ≠ 0 := by exact_mod_cast b.den_ne_zero
  rw [qSub, Rat.divInt_eq_div]
  push_cast
  conv_rhs => rw [← Rat.num_div_den a, ← Rat.num_div_den b]
  rw [div_sub_div _ _ ha hb]
  ring_nf

theorem qMul_eq (a b : ℚ) : qMul a b = a * b := by
  have ha : ((a.den : ℚ)) ≠ 0 := by exact_mod_cast a.den_ne_zero
  have hb : ((b.den : ℚ)) ≠ 0 := by exact_mod_cast b.den_ne_zero
  rw [qMul, Rat.divInt_eq_div]
  push_cast
  conv_rhs => rw [← Rat.num_div_den a, ← Rat.num_div_den b]
  rw [div_mul_div_comm]

theorem qDiv_eq (a b : ℚ) : qDiv a b = a / b := by
  rcases eq_or_ne b 0 with rfl | hb
  · show Rat.divInt _ _ = _
    norm_num
  · have ha : ((a.den : ℚ)) ≠ 0 := by exact_mod_cast a.den_ne_zero
    have hbd : ((b.den : ℚ)) ≠ 0 := by exact_mod_cast b.den_ne_zero
    have hbn : ((b.num : ℚ)) ≠ 0 := by exact_mod_cast Rat.num_ne_zero.mpr hb
    rw [qDiv, Rat.divInt_eq_div]
    push_cast
    conv_rhs => rw [← Rat.num_div_den a, ← Rat.num_div_den b]
    rw [div_div_eq_mul_div, div_mul_eq_mul_div, div_div]

/-- C1.  The claim says `normalize_activity` never raises and that every
unresolvable input yields the empty Activity named "Unnamed Run".  On the
repository's own `test_invalid_lap_metrics` payload the code raises
`TypeError` (the string `"invalid"` flows into `distance / 1000` inside
`_normalize_laps`), contradicting both the claim and the test, which
expects the invalid lap to be skipped; moreover the empty Activity the
code does return for unresolvable input carries the name "Unknown", not
"Unnamed Run". -/
theorem c1_normalize_activity_code_behaviour :
    normalize_activity invalidLapPayload = .error "TypeError" ∧
    normalize_activity (.str "not json") = .ok empty_activity ∧
    dGetV empty_activity "name" = .str "Unknown" := by
  refine ⟨by decide, by decide, by decide⟩

/-- C5.  The claim says `normalize_hr_zones` accepts JSON-string zone
entries and drops unresolvable ones without raising.  The code iterates
the raw sequence and calls `.get` on every element directly, so the
string entry of the repository's own `test_string_hr_zone_entries` test
raises `AttributeError` instead of being parsed. -/
theorem c5_normalize_hr_zones_code_behaviour :
    normalize_hr_zones (.list [.str stringZoneEntry]) = .error "AttributeError" := by
  decide

/-- C6.  The claim says `gather_data` never includes a non-running
activity when the upstream feed mixes types.  The code never filters by
type itself: with a feed whose first listing entry is a cycling activity,
the gathered dataset contains that cycling activity (its normalized
`type` is "cycling"), the 5-fold over-fetch notwithstanding. -/
theorem c6_gather_data_includes_cycling :
    (activitiesOf (gather_data cyclingClient "analyze my runs" "single" 3)).map
      (fun ad => (dGetV ad "activity_id",
                  dGetV (dGetV (dGetV ad "normalized") "activity") "type")) =
      [(.int 7, .str "cycling")] := by
  decide

/-- C2 counterexample.  A model response whose content is the valid JSON
text `[]` is "JSON that is not an object at all"; the claim says the
planner still returns a defaulted plan, but `plan.get("action")` on the
parsed list raises `AttributeError`. -/
theorem c2_plan_action_raises_on_json_array :
    plan_action "hello" Option.none (.dict [("content", .str "[]")]) =
      .error "AttributeError" := by
  decide

/-- C4 counterexample.  For the summary-less payload whose two valid laps
hold distances `-1000` and `1000`, the recomputed `distance_km` is `0`
even though a valid lap with positive distance exists, refuting the
claimed equivalence `distance_km == 0 ⟺ no valid lap with distance > 0`. -/
theorem c4_cancelling_laps_counterexample :
    (normalize_activity cancellingLapPayload).map
      (fun r => (dGetV r "distance_km",
                 match dGetV r "laps" with
                 | .list l => l.map (fun lp => dGetV lp "distance_m")
                 | _ => [])) =
      .ok (.float 0, [.int (-1000), .int 1000]) := by
  decide

/-- C7 counterexample.  With the summary present, `normalize_activity`
hands the raw lap list straight to `_normalize_laps`; the unresolvable
first entry is dropped but the surviving lap is numbered by its raw index
`2`, not by its valid-sequence position `1`, so dropped entries do leave
numbering gaps. -/
theorem c7_lap_numbering_counterexample :
    (normalize_activity gappedLapPayload).map
      (fun r => match dGetV r "laps" with
                | .list l => l.map (fun lp => dGetV lp "lap_number")
                | _ => []) =
      .ok [.int 2] := by
  decide

/-- C8 counterexample.  On the coachable question "what is my easy pace?"
with a context carrying a last intent, a base classification of
`decline_non_running` is not preserved: the domain-keyword override
("pace") rewrites it to `answer` before the coachable-topic check runs. -/
theorem c8_decline_not_preserved_counterexample :
    baseClassify declineResponse = .ok ("decline_non_running", "off topic", []) ∧
    (plan_action "what is my easy pace?" (some lastIntentCtx) declineResponse).map
      (fun p => dGetV p "action") = .ok (.str "answer") := by
  refine ⟨by decide, by decide⟩

/-- C3 counterexample.  With an upstream feed whose first splits response
is truthy but empty and whose corrective response would carry a full lap,
the gathered activity stays incomplete (the splits were never re-fetched,
`raw_splits` still holds the useless first response) and is appended with
no `warning` key — the claimed mandatory corrective re-fetch and warning
flag do not exist in the code. -/
theorem c3_no_retry_no_warning_counterexample :
    (activitiesOf (gather_data staleSplitsClient "r" "single" 1)).map
      (fun ad => (is_data_incomplete ad,
                  (match ad with
                   | .dict d => dHasKey d "warning"
                   | _ => true),
                  dGetV ad "raw_splits")) =
      [(true, false, .dict [("lapDTOs", .list [])])] := by
  decide

/-- C10.  `_detect_follow_up` returns `False` whenever the context is
absent, and whenever it returns `True` the context necessarily carries a
non-empty `recent_messages` list — so a context with only a last intent
or a summary can never trigger the follow-up override, whatever the
message says. -/
theorem c10_follow_up_needs_recent_messages :
    (∀ q, detect_follow_up q Option.none = false) ∧
    (∀ q c, detect_follow_up q (some c) = true →
       ∃ msgs, msgs ≠ [] ∧ dGetD c "recent_messages" PyVal.none = .list msgs) := by
  constructor
  · intro q; rfl
  · intro q c h
    rw [detect_follow_up] at h
    split at h
    · exact absurd h (by simp)
    · split at h
      case h_1 msgs hm =>
        refine ⟨msgs, ?_, hm⟩
        intro hnil
        rw [hnil] at h
        simp at h
      all_goals exact absurd h (by simp)

/-- C10 witness: a context whose `recent_messages` holds one message and
the short reply "ok" trigger the follow-up detector, and the theorem then
yields the non-empty list. -/
theorem c10_witness :
    ∃ msgs, msgs ≠ [] ∧
      dGetD [("recent_messages", PyVal.list [PyVal.dict [("role", PyVal.str "user")]])]
        "recent_messages" PyVal.none = .list msgs :=
  c10_follow_up_needs_recent_messages.2 "ok"
    [("recent_messages", PyVal.list [PyVal.dict [("role", PyVal.str "user")]])] (by decide)

/-- C8 (amended).  For every question matching the coachable-topic
whitelist, the final override of `_plan_action` forces `answer` — even
with no context, and over an `ask_clarifying` classification — unless
the action still in force after the context overrides is
`decline_non_running`, which is then returned; without context the
overrides are the identity, so there the *base* decline is preserved.
(As the counterexample shows, with running context a base decline can
already have been rewritten to `answer` by the domain-keyword override
before the coachable check runs, which is what the original claim
missed.) -/
theorem c8_coachable_override :
    (∀ q ctx resp a r nui a' r',
       is_coachable q = true →
       contextHintCheck ctx = .ok () →
       baseClassify resp = .ok (a, r, nui) →
       contextOverrides q ctx a r = .ok (a', r') →
       (plan_action q ctx resp).map (fun p => dGetV p "action") =
         .ok (.str (if a' = "decline_non_running" then "decline_non_running" else "answer"))) ∧
    (∀ q a r, contextOverrides q Option.none a r = .ok (a, r)) := by
  constructor
  · intro q ctx resp a r nui a' r' hc hh hb ho
    simp only [plan_action, hh, hb, bind, Except.bind]
    rw [ho]
    by_cases hd : a' = "decline_non_running"
    · simp [hd, Except.map, dGetV, dGetD, hc]
    · simp [hd, Except.map, dGetV, dGetD, hc, List.find?]
  · intro q a r; rfl

/-- C8 witness: with no context and a base `ask_clarifying`
classification, the coachable question is forced to `answer`. -/
theorem c8_witness :
    (plan_action "what is my easy pace?" Option.none
        (.dict [("content",
                 .str "\x7b\"action\": \"ask_clarifying\", \"reason\": \"need goal\", \"needs_user_info\": [\"goal\"]\x7d")])).map
      (fun p => dGetV p "action") = .ok (.str "answer") := by
  have h := c8_coachable_override.1 "what is my easy pace?" Option.none
    (.dict [("content",
             .str "\x7b\"action\": \"ask_clarifying\", \"reason\": \"need goal\", \"needs_user_info\": [\"goal\"]\x7d")])
    "ask_clarifying" "need goal" [.str "goal"] "ask_clarifying" "need goal"
    (by decide) (by decide) (by decide) (by decide)
  simpa using h

set_option linter.unnecessarySimpa false

/-- A truthy value accepted by `sliceOk` slices without raising. -/
theorem slice_ok_of (v : PyVal) (hs : sliceOk v = true) (ht : pyTruthy v = true) :
    ∃ w, pySlice400 v = .ok w := by
  match v with
  | .str s => exact ⟨_, rfl⟩
  | .list l => exact ⟨_, rfl⟩
  | .none => exact absurd ht (by decide)
  | .bool b =>
    have h2 : (!pyTruthy (PyVal.bool b)) = true := hs
    rw [ht] at h2
    exact absurd h2 (by decide)
  | .int n =>
    have h2 : (!pyTruthy (PyVal.int n)) = true := hs
    rw [ht] at h2
    exact absurd h2 (by decide)
  | .float q =>
    have h2 : (!pyTruthy (PyVal.float q)) = true := hs
    rw [ht] at h2
    exact absurd h2 (by decide)
  | .dict d =>
    have h2 : (!pyTruthy (PyVal.dict d)) = true := hs
    rw [ht] at h2
    exact absurd h2 (by decide)

/-- The `(v or {})` pattern lands on a dict when `dictIfTruthy` holds. -/
theorem dict_if_truthy (v : PyVal) (h : dictIfTruthy v = true) :
    ∃ rd, (if pyTruthy v = true then v else PyVal.dict []) = PyVal.dict rd := by
  match v with
  | .dict rd =>
    by_cases t : pyTruthy (PyVal.dict rd) = true
    · exact ⟨rd, if_pos t⟩
    · exact ⟨[], if_neg t⟩
  | .none =>
    exact ⟨[], if_neg (by decide)⟩
  | .bool b =>
    have h2 : (!pyTruthy (PyVal.bool b)) = true := h
    refine ⟨[], if_neg ?_⟩
    simp only [Bool.not_eq_true'] at h2
    simp [h2]
  | .int n =>
    have h2 : (!pyTruthy (PyVal.int n)) = true := h
    refine ⟨[], if_neg ?_⟩
    simp only [Bool.not_eq_true'] at h2
    simp [h2]
  | .float q =>
    have h2 : (!pyTruthy (PyVal.float q)) = true := h
    refine ⟨[], if_neg ?_⟩
    simp only [Bool.not_eq_true'] at h2
    simp [h2]
  | .str s =>
    have h2 : (!pyTruthy (PyVal.str s)) = true := h
    refine ⟨[], if_neg ?_⟩
    simp only [Bool.not_eq_true'] at h2
    simp [h2]
  | .list l =>
    have h2 : (!pyTruthy (PyVal.list l)) = true := h
    refine ⟨[], if_neg ?_⟩
    simp only [Bool.not_eq_true'] at h2
    simp [h2]

/-- On a clean context the hint construction of `_plan_action` cannot raise. -/
theorem hint_of_clean (ctx : Option Dct) (hc : ctxClean ctx = true) :
    contextHintCheck ctx = .ok () := by
  match ctx with
  | Option.none => rfl
  | some c =>
    rw [ctxClean] at hc
    rw [contextHintCheck]
    by_cases ht : pyTruthy (.dict c) = false
    · simp [ht]
    · rw [if_neg ht] at hc
      simp only [Bool.and_eq_true] at hc
      obtain ⟨⟨h1, h2⟩, h3⟩ := hc
      rw [if_neg ht]
      by_cases t1 : pyTruthy (dGetD c "summary" PyVal.none) = true
      · obtain ⟨w1, hw1⟩ := slice_ok_of _ h1 t1
        by_cases t2 : pyTruthy (dGetD c "last_analysis_text" PyVal.none) = true
        · obtain ⟨w2, hw2⟩ := slice_ok_of _ h2 t2
          simp [t1, t2, hw1, hw2, bind, Except.bind, pure, Except.pure]
        · simp [t1, t2, hw1, bind, Except.bind, pure, Except.pure]
      · by_cases t2 : pyTruthy (dGetD c "last_analysis_text" PyVal.none) = true
        · obtain ⟨w2, hw2⟩ := slice_ok_of _ h2 t2
          simp [t1, t2, hw2, bind, Except.bind, pure, Except.pure]
        · simp [t1, t2, bind, Except.bind, pure, Except.pure]

/-- On a clean context the profile override returns, keeping the action or
forcing `answer`. -/
theorem persona_of_clean (q : String) (c : Dct) (a r : String)
    (hp : personaOk (dGetD c "persona_profile" PyVal.none) = true) :
    ∃ a' r', personaOverride q c a r = .ok (a', r') ∧ (a' = a ∨ a' = "answer") := by
  rw [personaOverride]
  match hpp : dGetD c "persona_profile" PyVal.none with
  | .none | .bool _ | .int _ | .float _ | .str _ | .list _ =>
    exact ⟨a, r, rfl, Or.inl rfl⟩
  | .dict pd =>
    rw [hpp] at hp
    have hp2 : (dictIfTruthy (dGetD pd "runner_profile" PyVal.none) &&
        dictIfTruthy (dGetD pd "runner_history" PyVal.none)) = true := hp
    simp only [Bool.and_eq_true] at hp2
    obtain ⟨h1, h2⟩ := hp2
    obtain ⟨rd, hrd⟩ := dict_if_truthy _ h1
    obtain ⟨hd, hhd⟩ := dict_if_truthy _ h2
    simp only [hrd, hhd, pyGetE, bind, Except.bind]
    by_cases tp : pyTruthy (dGetD rd "proficiency" PyVal.none) = true
    · simp only [tp, pure, Except.pure, if_true]
      split
      · exact ⟨_, _, rfl, Or.inr rfl⟩
      · exact ⟨a, r, rfl, Or.inl rfl⟩
    · simp only [tp, pure, Except.pure, if_false, Bool.false_eq_true]
      split
      · exact ⟨_, _, rfl, Or.inr rfl⟩
      · exact ⟨a, r, rfl, Or.inl rfl⟩

/-- The follow-up override keeps the action or forces `answer`. -/
theorem followup_mem (q : String) (c : Dct) (a r : String) :
    (followupOverride q c a r).1 = a ∨ (followupOverride q c a r).1 = "answer" := by
  simp only [followupOverride]
  split
  · exact Or.inr rfl
  · exact Or.inl rfl

/-- The keyword and short-message overrides keep the action or force `answer`. -/
theorem keyword_mem (q : String) (c : Dct) (a r : String) :
    (keywordShortOverride q c a r).1 = a ∨ (keywordShortOverride q c a r).1 = "answer" := by
  simp only [keywordShortOverride]
  split
  · split <;> first
      | (split <;> simp)
      | simp
  · exact Or.inl rfl

/-- On a clean context the whole override block returns, keeping the action
or forcing `answer`. -/
theorem overrides_of_clean (q : String) (ctx : Option Dct) (a r : String)
    (hc : ctxClean ctx = true) :
    ∃ a' r', contextOverrides q ctx a r = .ok (a', r') ∧ (a' = a ∨ a' = "answer") := by
  match ctx with
  | Option.none => exact ⟨a, r, rfl, Or.inl rfl⟩
  | some c =>
    rw [ctxClean] at hc
    rw [contextOverrides]
    by_cases ht : pyTruthy (.dict c) = false
    · rw [if_pos ht]
      exact ⟨a, r, rfl, Or.inl rfl⟩
    · rw [if_neg ht] at hc
      simp only [Bool.and_eq_true] at hc
      obtain ⟨⟨h1, h2⟩, h3⟩ := hc
      rw [if_neg ht]
      obtain ⟨a2, r2, hpo, hmem⟩ := persona_of_clean q c
        (keywordShortOverride q c (followupOverride q c a r).1 (followupOverride q c a r).2).1
        (keywordShortOverride q c (followupOverride q c a r).1 (followupOverride q c a r).2).2 h3
      refine ⟨a2, r2, hpo, ?_⟩
      rcases hmem with h | h
      · rcases keyword_mem q c (followupOverride q c a r).1 (followupOverride q c a r).2 with hk | hk
        · rcases followup_mem q c a r with hf | hf
          · exact Or.inl (by rw [h, hk, hf])
          · exact Or.inr (by rw [h, hk, hf])
        · exact Or.inr (by rw [h, hk])
      · exact Or.inr h

/-- Python slicing `s[:n]` yields at most `n` characters. -/
theorem strTake_len (s : String) (n : Nat) : strLen (strTake s n) ≤ n := by
  show (String.mk (s.toList.take n)).data.length ≤ n
  simpa using List.length_take_le n s.toList

/-- When the model content fails to parse or parses to an object, the base
classification step returns one of the three valid actions, with the
documented defaults on a parse failure. -/
theorem base_of_parseable (content : String)
    (hp : jsonLoads content = Option.none ∨ ∃ pd : Dct, jsonLoads content = some (.dict pd)) :
    ∃ a r nui, baseClassify (.dict [("content", .str content)]) = .ok (a, r, nui) ∧
      (a = "answer" ∨ a = "ask_clarifying" ∨ a = "decline_non_running") ∧
      (jsonLoads content = Option.none → (a, r, nui) = ("answer", "Defaulted to answer.", [])) := by
  rcases hp with h | ⟨pd, h⟩
  · refine ⟨"answer", "Defaulted to answer.", [], ?_, Or.inl rfl, fun _ => rfl⟩
    simp [baseClassify, dGetD, List.find?, h, pyGetE, bind, Except.bind]
  · have hb : baseClassify (.dict [("content", .str content)]) =
        .ok ((match dGetD pd "action" PyVal.none with
              | .str s =>
                  if s = "answer" ∨ s = "ask_clarifying" ∨ s = "decline_non_running" then s
                  else "answer"
              | _ => "answer"),
             (match dGetD pd "reason" PyVal.none with
              | .str s => s
              | _ => "Defaulted to answer."),
             (match dGetD pd "needs_user_info" PyVal.none with
              | .list l => l
              | _ => [])) := by
      simp [baseClassify, dGetD, List.find?, h, pyGetE, bind, Except.bind]
    refine ⟨_, _, _, hb, ?_, ?_⟩
    · match ha : dGetD pd "action" PyVal.none with
      | .str s =>
        by_cases hv : s = "answer" ∨ s = "ask_clarifying" ∨ s = "decline_non_running"
        · simpa [hv] using hv
        · simp [hv]
      | .none | .bool _ | .int _ | .float _ | .list _ | .dict _ => simp
    · intro hn
      rw [hn] at h
      exact absurd h (by simp)

/-- C2 (amended).  For every model response text that fails to parse as
JSON or parses to a JSON object — and any context whose own handling does
not fault — `_plan_action` returns, without raising, a plan whose action
is one of the three valid values, whose reason has at most 200 characters
and whose `needs_user_info` has at most 5 items; with no context, no
coachable-topic match and unusable content, the plan is exactly the
default (`answer` / "Defaulted to answer.").  (Content parsing to a JSON
non-object raises, which is what the original claim missed.) -/
theorem c2_plan_action_wellformed :
    ∀ (content q : String) (ctx : Option Dct),
      ctxClean ctx = true →
      (jsonLoads content = Option.none ∨ ∃ pd : Dct, jsonLoads content = some (.dict pd)) →
      ∃ action reason nui,
        plan_action q ctx (.dict [("content", .str content)]) =
          .ok (.dict [("action", .str action), ("reason", .str reason),
                      ("needs_user_info", .list nui)]) ∧
        (action = "answer" ∨ action = "ask_clarifying" ∨ action = "decline_non_running") ∧
        strLen reason ≤ 200 ∧ nui.length ≤ 5 ∧
        (ctx = Option.none → is_coachable q = false → jsonLoads content = Option.none →
           action = "answer" ∧ reason = "Defaulted to answer.") := by
  intro content q ctx hcc hp
  obtain ⟨a, r, nui, hb, hmem, hdef⟩ := base_of_parseable content hp
  obtain ⟨a', r', ho, hmem'⟩ := overrides_of_clean q ctx a r hcc
  have hh := hint_of_clean ctx hcc
  by_cases hco : (is_coachable q && a' ≠ "decline_non_running") = true
  · refine ⟨"answer", strTake "Coachable question: answer best-effort." 200, nui.take 5,
      ?_, Or.inl rfl, strTake_len _ _, by simpa using List.length_take_le 5 nui, ?_⟩
    · simp only [plan_action, hh, hb, bind, Except.bind]
      rw [ho]
      simp only [Bool.and_eq_true, decide_eq_true_eq] at hco
      simp [hco]
    · intro _ hcq _
      rw [hcq] at hco
      simp at hco
  · refine ⟨a', strTake r' 200, nui.take 5, ?_, ?_, strTake_len _ _,
      by simpa using List.length_take_le 5 nui, ?_⟩
    · simp only [plan_action, hh, hb, bind, Except.bind]
      rw [ho]
      simp only [Bool.and_eq_true, decide_eq_true_eq] at hco
      simp [hco]
    · rcases hmem' with hx | hx
      · rw [hx]; exact hmem
      · exact Or.inl hx
    · intro hn hcq hjl
      subst hn
      have h2 : (Except.ok (ε := String) (a, r)) = Except.ok (a', r') := ho
      have h3 : a = a' ∧ r = r' := by
        have h4 := Except.ok.inj h2
        exact ⟨congrArg Prod.fst h4, congrArg Prod.snd h4⟩
      have hd := hdef hjl
      have ha : a = "answer" := congrArg (fun t => t.1) hd
      have hr : r = "Defaulted to answer." := congrArg (fun t => t.2.1) hd
      constructor
      · rw [← h3.1, ha]
      · rw [← h3.2, hr]
        decide

/-- C2 witness: unparseable content, no context, non-coachable question. -/
theorem c2_witness :
    ∃ action reason nui,
      plan_action "hello" Option.none (.dict [("content", .str "not json")]) =
        .ok (.dict [("action", .str action), ("reason", .str reason),
                    ("needs_user_info", .list nui)]) ∧
      (action = "answer" ∨ action = "ask_clarifying" ∨ action = "decline_non_running") ∧
      strLen reason ≤ 200 ∧ nui.length ≤ 5 ∧
      (Option.none = (Option.none : Option Dct) → is_coachable "hello" = false →
         jsonLoads "not json" = Option.none →
         action = "answer" ∧ reason = "Defaulted to answer.") :=
  c2_plan_action_wellformed "not json" "hello" Option.none (by decide) (Or.inl (by decide))

/-- The `_normalize_laps` loop keeps exactly the resolvable entries and
numbers them by the raw `enumerate` counter. -/
theorem lapsAux_shape : ∀ (dtos : List PyVal) (i : Int) (out : List PyVal),
    normalizeLapsAux i dtos = .ok out →
    out.length = (dtos.filter lapResolvable).length ∧
    out.map (fun lp => dGetV lp "lap_number") =
      (resolvedPositionsAux i dtos).map (fun j => PyVal.int j) := by
  intro dtos
  induction dtos with
  | nil =>
    intro i out h
    have h2 : out = [] := (Except.ok.inj h).symm
    subst h2
    exact ⟨rfl, rfl⟩
  | cons lap rest ih =>
    intro i out h
    rw [normalizeLapsAux] at h
    rcases hr : lapResolve lap with _ | ld
    · rw [hr] at h
      obtain ⟨hl, hmap⟩ := ih (i + 1) out h
      have hres : lapResolvable lap = false := by
        rw [lapResolvable, hr]
        rfl
      refine ⟨?_, ?_⟩
      · rw [hl, List.filter_cons, hres]
        simp
      · rw [hmap, resolvedPositionsAux, hres]
        simp
    · simp only [hr] at h
      rcases hdq : pyNumE (dGetD ld "distance" (PyVal.int 0)) with e | dq
      · rw [hdq] at h
        simp [bind, Except.bind] at h
      · rw [hdq] at h
        rcases huq : pyNumE (dGetD ld "duration" (PyVal.int 0)) with e | uq
        · rw [huq] at h
          simp [bind, Except.bind] at h
        · rw [huq] at h
          rcases hrest : normalizeLapsAux (i + 1) rest with e | restLaps
          · rw [hrest] at h
            simp [bind, Except.bind] at h
          · rw [hrest] at h
            simp only [bind, Except.bind] at h
            obtain ⟨hl, hmap⟩ := ih (i + 1) restLaps hrest
            have hout : out = _ :: restLaps := (Except.ok.inj h).symm
            subst hout
            have hres : lapResolvable lap = true := by
              rw [lapResolvable, hr]
              rfl
            refine ⟨?_, ?_⟩
            · rw [List.filter_cons, hres]
              simp [hl]
            · rw [resolvedPositionsAux, hres]
              simp only [List.map_cons, if_true]
              rw [hmap]
              rfl

/-- C7 (amended).  Whenever `_normalize_laps` returns, unresolvable
entries have been dropped silently, the result length equals the count of
resolvable entries — but each `lap_number` is the 1-based *raw* position
of its entry in the input sequence, so dropped entries leave gaps (the
original claim asserted gap-free valid-sequence numbering, which the
counterexample refutes on the summary-present path, where the raw list is
passed to `_normalize_laps` unfiltered). -/
theorem c7_lap_length_and_numbering :
    ∀ (lap_dtos : List PyVal) (out : List PyVal),
      normalize_laps lap_dtos = .ok out →
      out.length = (lap_dtos.filter lapResolvable).length ∧
      out.map (fun lp => dGetV lp "lap_number") =
        (resolvedPositions lap_dtos).map (fun j => PyVal.int j) :=
  fun dtos out h => lapsAux_shape dtos 1 out h

/-- C7 witness: a string-encoded lap followed by an unresolvable integer
entry yields one lap, matching the resolvable count and raw numbering. -/
theorem c7_witness :
    ∃ out,
      normalize_laps [.str "\x7b\"distance\": 1000, \"duration\": 300\x7d", .int 3] = .ok out ∧
      out.length =
        ([PyVal.str "\x7b\"distance\": 1000, \"duration\": 300\x7d",
          PyVal.int 3].filter lapResolvable).length ∧
      out.map (fun lp => dGetV lp "lap_number") =
        (resolvedPositions [PyVal.str "\x7b\"distance\": 1000, \"duration\": 300\x7d",
          PyVal.int 3]).map (fun j => PyVal.int j) := by
  refine ⟨_, (by decide :
    normalize_laps [.str "\x7b\"distance\": 1000, \"duration\": 300\x7d", .int 3] =
      .ok [.dict [("lap_number", .int 1), ("distance_km", .float 1),
        ("distance_m", .int 1000), ("duration_min", .float 5), ("duration_s", .int 300),
        ("avg_hr", .int 0), ("max_hr", .int 0), ("avg_cadence", .int 0),
        ("max_cadence", .int 0), ("elevation_gain", .int 0), ("elevation_loss", .int 0),
        ("pace_min_per_km", .float 5), ("pace_formatted", .str "5:00")]]), ?_⟩
  exact c7_lap_length_and_numbering _ _ (by decide)

/-- `_gather_single_activity_data` always builds the six fixed keys. -/
theorem gather_single_shape (cl : MCPClient) (aid : PyVal) :
    ∃ v1 v2 v3 v4 v5, gather_single_activity_data cl aid =
      .dict [("activity_id", aid), ("raw_activity", v1), ("raw_splits", v2),
             ("raw_hr_zones", v3), ("raw_weather", v4), ("normalized", v5)] :=
  ⟨_, _, _, _, _, rfl⟩

/-- `_correct_incomplete_data` preserves the six fixed keys. -/
theorem correct_shape (cl : MCPClient) (aid v0 v1 v2 v3 v4 v5 : PyVal) :
    ∃ w0 w1 w2 w3 w4 w5,
      correct_incomplete_data cl aid
        (.dict [("activity_id", v0), ("raw_activity", v1), ("raw_splits", v2),
                ("raw_hr_zones", v3), ("raw_weather", v4), ("normalized", v5)]) =
      .dict [("activity_id", w0), ("raw_activity", w1), ("raw_splits", w2),
             ("raw_hr_zones", w3), ("raw_weather", w4), ("normalized", w5)] := by
  rw [correct_incomplete_data]
  by_cases ht : pyTruthy (dGetD [("activity_id", v0), ("raw_activity", v1), ("raw_splits", v2),
      ("raw_hr_zones", v3), ("raw_weather", v4), ("normalized", v5)] "raw_splits" .none) = true
  · rw [if_pos ht]
    exact ⟨v0, v1, v2, v3, v4, v5, rfl⟩
  · rw [if_neg ht]
    exact ⟨_, _, _, _, _, _, rfl⟩

/-- A processed entry is a dict over the six fixed keys; in particular it
never carries a `warning` key. -/
theorem processEntry_no_warning (cl : MCPClient) (aid : PyVal) :
    ∃ d : Dct, processEntry cl aid = .dict d ∧ dHasKey d "warning" = false := by
  rw [processEntry]
  obtain ⟨v1, v2, v3, v4, v5, hg⟩ := gather_single_shape cl aid
  by_cases hi : is_data_incomplete (gather_single_activity_data cl aid) = true
  · rw [if_pos hi, hg]
    obtain ⟨w0, w1, w2, w3, w4, w5, hc⟩ := correct_shape cl aid aid v1 v2 v3 v4 v5
    rw [hc]
    exact ⟨_, rfl, rfl⟩
  · rw [if_neg hi, hg]
    exact ⟨_, rfl, rfl⟩

/-- Everything the gathering loop appends is a processed entry. -/
theorem gatherLoop_mem (cl : MCPClient) :
    ∀ (rest : List PyVal) (processed target : Nat) (acc : List PyVal) (ad : PyVal),
      ad ∈ (gatherLoop cl rest processed target acc).1 →
      ad ∈ acc ∨ ∃ aid, ad = processEntry cl aid := by
  intro rest
  induction rest with
  | nil =>
    intro processed target acc ad h
    exact Or.inl h
  | cons s rest ih =>
    intro processed target acc ad h
    match s with
    | .dict d =>
      simp only [gatherLoop] at h
      by_cases hp : target ≤ processed
      · rw [if_pos hp] at h
        exact Or.inl h
      · rw [if_neg hp] at h
        by_cases ha : pyTruthy (dGetD d "activityId" PyVal.none) = false
        · rw [if_pos ha] at h
          exact ih _ _ _ _ h
        · rw [if_neg ha] at h
          rcases ih _ _ _ _ h with h2 | h2
          · rcases List.mem_append.mp h2 with h3 | h3
            · exact Or.inl h3
            · exact Or.inr ⟨_, List.mem_singleton.mp h3⟩
          · exact Or.inr h2
    | .none | .bool _ | .int _ | .float _ | .str _ | .list _ =>
      simp only [gatherLoop] at h
      by_cases hp : target ≤ processed
      · rw [if_pos hp] at h
        exact Or.inl h
      · rw [if_neg hp] at h
        exact Or.inl h

/-- The activities of a gathered dataset are the loop's accumulator. -/
theorem activitiesOf_gather_data (cl : MCPClient) (req scope : String) (n : Nat) :
    activitiesOf (gather_data cl req scope n) =
      if cl.activities_list.isEmpty then [] else (gatherLoop cl cl.activities_list 0 n []).1 := by
  rw [gather_data]
  by_cases he : cl.activities_list.isEmpty = true
  · rw [if_pos he, if_pos he]
    rfl
  · rw [if_neg he, if_neg he]
    rcases hg : gatherLoop cl cl.activities_list 0 n [] with ⟨acts, err⟩
    simp only [hg]
    cases err
    · simp [activitiesOf, dGetV, dGetD, List.find?]
    · simp [activitiesOf, dGetV, dGetD, List.find?]

/-- C3 (amended).  Every activity in a gathered dataset is the result of
`processEntry`: one fetch pass, then — only when judged incomplete — one
pass of `_correct_incomplete_data`, which re-fetches splits at most once
(and not at all when `raw_splits` is truthy, second conjunct) and never
retries further; the appended entry never carries a `warning` key, so a
still-incomplete activity is kept unchanged rather than discarded or
flagged. -/
theorem c3_single_correction_no_warning :
    (∀ (cl : MCPClient) (req scope : String) (n : Nat) (ad : PyVal),
        ad ∈ activitiesOf (gather_data cl req scope n) →
        (∃ aid, ad = processEntry cl aid) ∧
        ∃ d : Dct, ad = .dict d ∧ dHasKey d "warning" = false) ∧
    (∀ (cl : MCPClient) (aid ad : PyVal),
        pyTruthy (dGetV ad "raw_splits") = true →
        correct_incomplete_data cl aid ad = ad) := by
  constructor
  · intro cl req scope n ad h
    rw [activitiesOf_gather_data] at h
    by_cases he : cl.activities_list.isEmpty = true
    · rw [if_pos he] at h
      exact absurd h (List.not_mem_nil ad)
    · rw [if_neg he] at h
      rcases gatherLoop_mem cl _ _ _ _ _ h with h2 | ⟨aid, h2⟩
      · exact absurd h2 (List.not_mem_nil ad)
      · obtain ⟨d, hd, hw⟩ := processEntry_no_warning cl aid
        exact ⟨⟨aid, h2⟩, d, h2 ▸ hd, hw⟩
  · intro cl aid ad ht
    match ad with
    | .dict d =>
      rw [correct_incomplete_data]
      have ht2 : pyTruthy (dGetD d "raw_splits" PyVal.none) = true := ht
      rw [if_pos ht2]
    | .none => rfl
    | .bool _ => rfl
    | .int _ => rfl
    | .float _ => rfl
    | .str _ => rfl
    | .list _ => rfl

/-- C3 witness: the stale-splits feed yields an appended entry that is a
processed entry and has no `warning` key. -/
theorem c3_witness :
    ∃ aid d,
      (activitiesOf (gather_data staleSplitsClient "r" "single" 1)).headD PyVal.none =
        processEntry staleSplitsClient aid ∧
      (activitiesOf (gather_data staleSplitsClient "r" "single" 1)).headD PyVal.none =
        .dict d ∧
      dHasKey d "warning" = false := by
  have h := c3_single_correction_no_warning.1 staleSplitsClient "r" "single" 1
    ((activitiesOf (gather_data staleSplitsClient "r" "single" 1)).headD PyVal.none)
    (by decide)
  obtain ⟨⟨aid, h1⟩, d, h2, h3⟩ := h
  exact ⟨aid, d, h1, h2, h3⟩

/-- Every lap `_normalize_laps` emits stores numeric `distance_m` and
`duration_s`, and its pace is the guarded quotient. -/
theorem lapsAux_pace : ∀ (dtos : List PyVal) (i : Int) (out : List PyVal),
    normalizeLapsAux i dtos = .ok out →
    ∀ lp ∈ out, ∃ dm ds : ℚ,
      pyNum? (dGetV lp "distance_m") = some dm ∧
      pyNum? (dGetV lp "duration_s") = some ds ∧
      dGetV lp "pace_min_per_km" =
        (if 0 < dm ∧ 0 < ds then .float ((ds / 60) / (dm / 1000)) else .int 0) := by
  intro dtos
  induction dtos with
  | nil =>
    intro i out h lp hlp
    have h2 : out = [] := (Except.ok.inj h).symm
    subst h2
    exact absurd hlp (List.not_mem_nil lp)
  | cons lap rest ih =>
    intro i out h lp hlp
    rw [normalizeLapsAux] at h
    rcases hr : lapResolve lap with _ | ld
    · rw [hr] at h
      exact ih (i + 1) out h lp hlp
    · simp only [hr] at h
      rcases hdq : pyNumE (dGetD ld "distance" (PyVal.int 0)) with e | dq
      · rw [hdq] at h
        simp [bind, Except.bind] at h
      · rw [hdq] at h
        rcases huq : pyNumE (dGetD ld "duration" (PyVal.int 0)) with e | uq
        · rw [huq] at h
          simp [bind, Except.bind] at h
        · rw [huq] at h
          rcases hrest : normalizeLapsAux (i + 1) rest with e | restLaps
          · rw [hrest] at h
            simp [bind, Except.bind] at h
          · rw [hrest] at h
            simp only [bind, Except.bind] at h
            have hout : out = _ :: restLaps := (Except.ok.inj h).symm
            subst hout
            rcases List.mem_cons.mp hlp with h2 | h2
            · subst h2
              refine ⟨dq, uq, ?_, ?_, ?_⟩
              · have hq : pyNum? (dGetD ld "distance" (PyVal.int 0)) = some dq := by
                  rw [pyNumE] at hdq
                  rcases hx : pyNum? (dGetD ld "distance" (PyVal.int 0)) with _ | q
                  · rw [hx] at hdq
                    exact absurd hdq (by simp)
                  · rw [hx] at hdq
                    exact hx ▸ congrArg some (Except.ok.inj hdq)
                simpa [dGetV, dGetD, List.find?] using hq
              · have hq : pyNum? (dGetD ld "duration" (PyVal.int 0)) = some uq := by
                  rw [pyNumE] at huq
                  rcases hx : pyNum? (dGetD ld "duration" (PyVal.int 0)) with _ | q
                  · rw [hx] at huq
                    exact absurd huq (by simp)
                  · rw [hx] at huq
                    exact hx ▸ congrArg some (Except.ok.inj huq)
                simpa [dGetV, dGetD, List.find?] using hq
              · have he : qDiv (qDiv uq 60) (qDiv dq 1000) = (uq / 60) / (dq / 1000) := by
                  rw [qDiv_eq, qDiv_eq, qDiv_eq]
                rw [he]
                rfl
            · exact ih (i + 1) restLaps hrest lp h2

/-- The totals block stores numeric distance/duration values whose
rational readings are exactly the carried `dk`/`du`, and its laps are
either empty or a `_normalize_laps` result. -/
theorem coreTotals_num (d : Dct) (dv : PyVal) (dk : ℚ) (uv : PyVal) (du : ℚ)
    (laps : List PyVal)
    (h : coreTotals d = .ok (dv, dk, uv, du, laps)) :
    pyNum? dv = some dk ∧ pyNum? uv = some du ∧
      (laps = [] ∨ ∃ (i : Int) (src : List PyVal), normalizeLapsAux i src = .ok laps) := by
  rw [coreTotals] at h
  simp only [bind, Except.bind] at h
  repeat' split at h
  all_goals try exact (Except.noConfusion h)
  all_goals cases Except.ok.inj h
  all_goals first
    | exact ⟨by norm_num [pyNum?], by norm_num [pyNum?], Or.inl rfl⟩
    | exact ⟨rfl, rfl, Or.inl rfl⟩
    | exact ⟨rfl, rfl, Or.inr ⟨1, _, by assumption⟩⟩

/-- C9.  For every successfully normalized activity, the derived pace is
`duration_min / distance_km` exactly when both are strictly positive and
`0` otherwise (symmetrically for `avg_speed_kmh`), and every normalized
lap's pace is the guarded `(duration_s/60) / (distance_m/1000)` — the
guards mean no division is ever attempted with a zero distance or
duration, in `normalize_activity` and `_normalize_laps` alike. -/
theorem c9_pace_guard :
    ∀ (raw res : PyVal), normalize_activity raw = .ok res →
      (∃ dk du : ℚ,
        pyNum? (dGetV res "distance_km") = some dk ∧
        pyNum? (dGetV res "duration_min") = some du ∧
        dGetV res "avg_pace_min_per_km" =
          (if 0 < dk ∧ 0 < du then .float (du / dk) else .int 0) ∧
        dGetV res "avg_speed_kmh" =
          (if 0 < dk ∧ 0 < du then .float (dk / (du / 60)) else .int 0)) ∧
      (∀ lapsL, dGetV res "laps" = .list lapsL →
        ∀ lp ∈ lapsL, ∃ dm ds : ℚ,
          pyNum? (dGetV lp "distance_m") = some dm ∧
          pyNum? (dGetV lp "duration_s") = some ds ∧
          dGetV lp "pace_min_per_km" =
            (if 0 < dm ∧ 0 < ds then .float ((ds / 60) / (dm / 1000)) else .int 0)) := by
  intro raw res h
  rw [normalize_activity] at h
  simp only [bind, Except.bind] at h
  split at h
  · exact (Except.noConfusion h)
  · rename_i x
    split at h
    · cases Except.ok.inj h
      constructor
      · refine ⟨0, 0, by decide, by decide, by decide, by decide⟩
      · intro lapsL hL
        have h2 : lapsL = [] := by
          have h3 : PyVal.list [] = PyVal.list lapsL := hL
          exact (PyVal.list.inj h3).symm
        subst h2
        intro lp hlp
        exact absurd hlp (List.not_mem_nil lp)
    · rename_i d
      rw [normalizeResolved] at h
      simp only [bind, Except.bind] at h
      split at h
      · exact (Except.noConfusion h)
      · rename_i tot htot
        obtain ⟨dv, dk, uv, du, laps⟩ := tot
        simp only at h
        cases Except.ok.inj h
        obtain ⟨hnd, hnu, hlaps⟩ := coreTotals_num d dv dk uv du laps htot
        constructor
        · refine ⟨dk, du, hnd, hnu, ?_, ?_⟩
          · have he : qDiv du dk = du / dk := qDiv_eq du dk
            rw [he]
            rfl
          · have he : qDiv dk (qDiv du 60) = dk / (du / 60) := by
              rw [qDiv_eq, qDiv_eq]
            rw [he]
            rfl
        · intro lapsL hL
          have h2 : lapsL = laps := by
            have h3 : PyVal.list laps = PyVal.list lapsL := hL
            exact (PyVal.list.inj h3).symm
          subst h2
          rcases hlaps with h4 | ⟨i, src, h4⟩
          · subst h4
            intro lp hlp
            exact absurd hlp (List.not_mem_nil lp)
          · exact lapsAux_pace src i _ h4

/-- C9 witness: a summary-backed payload with one valid lap. -/
theorem c9_witness :
    ∃ dk du : ℚ,
      pyNum? (dGetV ((normalize_activity gappedLapPayload).toOption.getD (.dict []))
        "distance_km") = some dk ∧
      pyNum? (dGetV ((normalize_activity gappedLapPayload).toOption.getD (.dict []))
        "duration_min") = some du ∧
      dGetV ((normalize_activity gappedLapPayload).toOption.getD (.dict []))
        "avg_pace_min_per_km" = (if 0 < dk ∧ 0 < du then .float (du / dk) else .int 0) ∧
      dGetV ((normalize_activity gappedLapPayload).toOption.getD (.dict []))
        "avg_speed_kmh" = (if 0 < dk ∧ 0 < du then .float (dk / (du / 60)) else .int 0) :=
  (c9_pace_guard gappedLapPayload _ (by decide)).1

/-- A non-empty dict without a `raw_text` key resolves to itself. -/
theorem resolveRaw_dict (d : Dct) (hne : d ≠ []) (hk : dHasKey d "raw_text" = false) :
    resolveRaw (.dict d) = .ok (some d) := by
  have ht : pyTruthy (.dict d) = true := by
    simp [pyTruthy, hne]
  rw [resolveRaw, if_neg (by simp [ht])]
  simp [hk]
  exact fun s hs => PyVal.noConfusion hs

/-- Summing a field over dict entries with numeric values succeeds. -/
theorem sumKey_ok (k : String) :
    ∀ vs : List PyVal,
      (∀ s ∈ vs, ∃ sd : Dct, s = .dict sd ∧
        ∃ q : ℚ, pyNum? (dGetD sd k (.int 0)) = some q) →
      ∃ q : ℚ, pySumKey k vs = .ok q := by
  intro vs
  induction vs with
  | nil => exact fun _ => ⟨0, rfl⟩
  | cons s rest ih =>
    intro hgood
    obtain ⟨sd, rfl, q, hq⟩ := hgood s (List.mem_cons_self _ _)
    obtain ⟨q', hq'⟩ := ih (fun t ht => hgood t (List.mem_cons_of_mem _ ht))
    refine ⟨qAdd q q', ?_⟩
    rw [pySumKey]
    simp [pyGetE, bind, Except.bind, pyNumE, hq, hq']

/-- The distance sum over well-formed laps with non-negative distances is
non-negative and vanishes exactly when no lap distance is positive. -/
theorem sumDist_good :
    ∀ vs : List PyVal,
      (∀ s ∈ vs, ∃ sd : Dct, s = .dict sd ∧
        ∃ dq : ℚ, pyNum? (dGetD sd "distance" (.int 0)) = some dq ∧ 0 ≤ dq) →
      ∃ q : ℚ, pySumKey "distance" vs = .ok q ∧ 0 ≤ q ∧
        (q = 0 ↔ ¬ ∃ s ∈ vs, ∃ dq : ℚ, lap_distance_num s = some dq ∧ 0 < dq) := by
  intro vs
  induction vs with
  | nil =>
    intro _
    exact ⟨0, rfl, le_refl 0, by simp⟩
  | cons s rest ih =>
    intro hgood
    obtain ⟨sd, rfl, dq, hdq, hnn⟩ := hgood s (List.mem_cons_self _ _)
    obtain ⟨q', hq', hnn', hiff⟩ := ih (fun t ht => hgood t (List.mem_cons_of_mem _ ht))
    refine ⟨qAdd dq q', ?_, ?_, ?_⟩
    · rw [pySumKey]
      simp [pyGetE, bind, Except.bind, pyNumE, hdq, hq']
    · rw [qAdd_eq]
      exact add_nonneg hnn hnn'
    · rw [qAdd_eq]
      constructor
      · intro h0
        have hdz : dq = 0 := by linarith [(add_eq_zero_iff_of_nonneg hnn hnn').mp h0]
        have hqz : q' = 0 := by linarith
        intro ⟨t, hmem, tq, htq, htpos⟩
        rcases List.mem_cons.mp hmem with rfl | hmem'
        · rw [lap_distance_num] at htq
          rw [hdq] at htq
          have : tq = dq := (Option.some.inj htq).symm
          subst this
          exact absurd hdz (by linarith)
        · exact (hiff.mp hqz) ⟨t, hmem', tq, htq, htpos⟩
      · intro hno
        have hdz : dq = 0 := by
          by_contra hne
          have hpos : 0 < dq := lt_of_le_of_ne hnn (Ne.symm hne)
          exact hno ⟨.dict sd, List.mem_cons_self _ _, dq,
            by rw [lap_distance_num]; exact hdq, hpos⟩
        have hqz : q' = 0 :=
          hiff.mpr (fun ⟨t, hmem, tq, htq, htpos⟩ =>
            hno ⟨t, List.mem_cons_of_mem _ hmem, tq, htq, htpos⟩)
        rw [hdz, hqz, add_zero]

/-- `_normalize_laps` succeeds on dict laps with numeric metrics. -/
theorem lapsAux_total :
    ∀ (vs : List PyVal) (i : Int),
      (∀ s ∈ vs, ∃ sd : Dct, s = .dict sd ∧
        (∃ dq : ℚ, pyNum? (dGetD sd "distance" (.int 0)) = some dq) ∧
        (∃ uq : ℚ, pyNum? (dGetD sd "duration" (.int 0)) = some uq)) →
      ∃ out, normalizeLapsAux i vs = .ok out := by
  intro vs
  induction vs with
  | nil => exact fun _ _ => ⟨[], rfl⟩
  | cons s rest ih =>
    intro i hgood
    obtain ⟨sd, rfl, ⟨dq, hdq⟩, ⟨uq, huq⟩⟩ := hgood s (List.mem_cons_self _ _)
    obtain ⟨out', hout'⟩ := ih (i + 1) (fun t ht => hgood t (List.mem_cons_of_mem _ ht))
    have hlr : lapResolve (.dict sd) = some sd := rfl
    simp only [normalizeLapsAux, hlr, pyNumE, hdq, huq, bind, Except.bind, hout']
    exact ⟨_, rfl⟩

/-- C4 (amended).  For a payload whose summary is absent or reports zero
distance/duration, `normalize_activity` recomputes `distance_km` and
`duration_min` as the sums over the valid laps (divided by 1000 and 60),
returns all-zero totals, empty laps and zero pace when no valid laps
exist, and — provided every valid lap carries numeric metrics with a
non-negative distance — `distance_km == 0` holds exactly when no valid
lap has positive distance.  (The non-negativity proviso is what the
original claim lacked: the counterexample's `-1000`/`1000` laps cancel,
and the repository's own test shows a non-numeric lap metric raises
instead of summing.) -/
theorem c4_lap_fallback :
    ∀ (d : Dct) (splits vs : List PyVal),
      d ≠ [] →
      dHasKey d "raw_text" = false →
      (pyEq0 (dGetD (match dGetD d "summaryDTO" (.dict []) with
                     | .dict sd => sd
                     | _ => []) "distance" (.int 0)) ||
       pyEq0 (dGetD (match dGetD d "summaryDTO" (.dict []) with
                     | .dict sd => sd
                     | _ => []) "duration" (.int 0))) = true →
      splits = (if pyTruthy (dGetD d "splits_data" (.dict []))
                then get_splits_safely (dGetD d "splits_data" (.dict []))
                else get_splits_safely (.dict d)) →
      vs = validSplits splits →
      (∀ s ∈ vs, ∃ sd : Dct, s = .dict sd ∧
        (∃ dq : ℚ, pyNum? (dGetD sd "distance" (.int 0)) = some dq ∧ 0 ≤ dq) ∧
        (∃ uq : ℚ, pyNum? (dGetD sd "duration" (.int 0)) = some uq)) →
      ∃ (res : PyVal) (sd su : ℚ),
        normalize_activity (.dict d) = .ok res ∧
        pySumKey "distance" vs = .ok sd ∧
        pySumKey "duration" vs = .ok su ∧
        (vs ≠ [] → dGetV res "distance_km" = .float (sd / 1000) ∧
                   dGetV res "duration_min" = .float (su / 60)) ∧
        (vs = [] → dGetV res "distance_km" = .int 0 ∧ dGetV res "duration_min" = .int 0 ∧
                   dGetV res "laps" = .list [] ∧ dGetV res "avg_pace_min_per_km" = .int 0) ∧
        (pyEq0 (dGetV res "distance_km") = true ↔
          ¬ ∃ s ∈ vs, ∃ dq : ℚ, lap_distance_num s = some dq ∧ 0 < dq) := by
  intro d splits vs hne hk hz hsp hvs hgood
  have hra := resolveRaw_dict d hne hk
  have hfull : normalize_activity (.dict d) = normalizeResolved d := by
    rw [normalize_activity]
    simp only [bind, Except.bind, hra]
  obtain ⟨sdq, hsd, hsnn, hiff⟩ := sumDist_good vs
    (fun s hs => (hgood s hs).elim (fun sd2 h2 => ⟨sd2, h2.1, h2.2.1⟩))
  obtain ⟨suq, hsu⟩ := sumKey_ok "duration" vs
    (fun s hs => (hgood s hs).elim (fun sd2 h2 => ⟨sd2, h2.1, h2.2.2⟩))
  by_cases hvse : vs = []
  · have hct : coreTotals d = .ok (.int 0, 0, .int 0, 0, []) := by
      rw [coreTotals, ← hsp, if_pos hz, ← hvs, if_pos (by rw [hvse]; rfl)]
    have hnr : normalizeResolved d = Except.ok (PyVal.dict
        [("activity_id", dGetD d "activityId" PyVal.none),
         ("name", dGetD d "activityName" (PyVal.str "Unnamed Run")),
         ("date", dGetD d "startTimeGMT" PyVal.none),
         ("type", match dGetD d "activityTypeDTO" (PyVal.dict []) with
                  | PyVal.dict td => dGetD td "typeKey" (PyVal.str "running")
                  | _ => PyVal.str "running"),
         ("description", dGetD d "description" (PyVal.str "")),
         ("distance_km", PyVal.int 0),
         ("duration_min", PyVal.int 0),
         ("laps", PyVal.list []),
         ("avg_pace_min_per_km", PyVal.int 0),
         ("avg_speed_kmh", PyVal.int 0),
         ("avg_hr", dGetD (match dGetD d "summaryDTO" (.dict []) with
                           | .dict sd => sd
                           | _ => []) "averageHR" (PyVal.int 0)),
         ("max_hr", dGetD (match dGetD d "summaryDTO" (.dict []) with
                           | .dict sd => sd
                           | _ => []) "maxHR" (PyVal.int 0)),
         ("min_hr", dGetD (match dGetD d "summaryDTO" (.dict []) with
                           | .dict sd => sd
                           | _ => []) "minHR" (PyVal.int 0)),
         ("calories", dGetD (match dGetD d "summaryDTO" (.dict []) with
                             | .dict sd => sd
                             | _ => []) "calories" (PyVal.int 0)),
         ("avg_cadence", dGetD (match dGetD d "summaryDTO" (.dict []) with
                                | .dict sd => sd
                                | _ => []) "averageRunCadence" (PyVal.int 0)),
         ("max_cadence", dGetD (match dGetD d "summaryDTO" (.dict []) with
                                | .dict sd => sd
                                | _ => []) "maxRunCadence" (PyVal.int 0)),
         ("avg_power", dGetD (match dGetD d "summaryDTO" (.dict []) with
                              | .dict sd => sd
                              | _ => []) "averagePower" (PyVal.int 0)),
         ("max_power", dGetD (match dGetD d "summaryDTO" (.dict []) with
                              | .dict sd => sd
                              | _ => []) "maxPower" (PyVal.int 0)),
         ("training_effect", dGetD (match dGetD d "summaryDTO" (.dict []) with
                                    | .dict sd => sd
                                    | _ => []) "trainingEffect" (PyVal.int 0)),
         ("anaerobic_training_effect", dGetD (match dGetD d "summaryDTO" (.dict []) with
                                              | .dict sd => sd
                                              | _ => []) "anaerobicTrainingEffect" (PyVal.int 0)),
         ("avg_speed_ms", dGetD (match dGetD d "summaryDTO" (.dict []) with
                                 | .dict sd => sd
                                 | _ => []) "averageSpeed" (PyVal.int 0)),
         ("max_speed_ms", dGetD (match dGetD d "summaryDTO" (.dict []) with
                                 | .dict sd => sd
                                 | _ => []) "maxSpeed" (PyVal.int 0))]) := by
      rw [normalizeResolved]
      simp only [bind, Except.bind, hct]
      norm_num
    refine ⟨_, sdq, suq, hfull.trans hnr, hsd, hsu, ?_, ?_, ?_⟩
    · intro h
      exact absurd hvse h
    · intro _
      exact ⟨rfl, rfl, rfl, rfl⟩
    · constructor
      · intro _
        intro ⟨s, hmem, hrest⟩
        rw [hvse] at hmem
        exact absurd hmem (List.not_mem_nil s)
      · intro _
        rfl
  · obtain ⟨laps, hlaps⟩ := lapsAux_total vs 1
      (fun s hs => (hgood s hs).elim (fun sd2 h2 =>
        ⟨sd2, h2.1, h2.2.1.elim (fun q hq => ⟨q, hq.1⟩), h2.2.2⟩))
    have hct : coreTotals d =
        .ok (.float (qDiv sdq 1000), qDiv sdq 1000, .float (qDiv suq 60), qDiv suq 60, laps) := by
      rw [coreTotals, ← hsp, if_pos hz, ← hvs,
        if_neg (by simp [List.isEmpty_iff, hvse])]
      simp only [bind, Except.bind, hsd, hsu, normalize_laps, hlaps]
    have hnr : normalizeResolved d = Except.ok (PyVal.dict
        [("activity_id", dGetD d "activityId" PyVal.none),
         ("name", dGetD d "activityName" (PyVal.str "Unnamed Run")),
         ("date", dGetD d "startTimeGMT" PyVal.none),
         ("type", match dGetD d "activityTypeDTO" (PyVal.dict []) with
                  | PyVal.dict td => dGetD td "typeKey" (PyVal.str "running")
                  | _ => PyVal.str "running"),
         ("description", dGetD d "description" (PyVal.str "")),
         ("distance_km", PyVal.float (qDiv sdq 1000)),
         ("duration_min", PyVal.float (qDiv suq 60)),
         ("laps", PyVal.list laps),
         ("avg_pace_min_per_km",
          if 0 < qDiv sdq 1000 ∧ 0 < qDiv suq 60 then
            PyVal.float (qDiv (qDiv suq 60) (qDiv sdq 1000))
          else PyVal.int 0),
         ("avg_speed_kmh",
          if 0 < qDiv sdq 1000 ∧ 0 < qDiv suq 60 then
            PyVal.float (qDiv (qDiv sdq 1000) (qDiv (qDiv suq 60) 60))
          else PyVal.int 0),
         ("avg_hr", dGetD (match dGetD d "summaryDTO" (.dict []) with
                           | .dict sd => sd
                           | _ => []) "averageHR" (PyVal.int 0)),
         ("max_hr", dGetD (match dGetD d "summaryDTO" (.dict []) with
                           | .dict sd => sd
                           | _ => []) "maxHR" (PyVal.int 0)),
         ("min_hr", dGetD (match dGetD d "summaryDTO" (.dict []) with
                           | .dict sd => sd
                           | _ => []) "minHR" (PyVal.int 0)),
         ("calories", dGetD (match dGetD d "summaryDTO" (.dict []) with
                             | .dict sd => sd
                             | _ => []) "calories" (PyVal.int 0)),
         ("avg_cadence", dGetD (match dGetD d "summaryDTO" (.dict []) with
                                | .dict sd => sd
                                | _ => []) "averageRunCadence" (PyVal.int 0)),
         ("max_cadence", dGetD (match dGetD d "summaryDTO" (.dict []) with
                                | .dict sd => sd
                                | _ => []) "maxRunCadence" (PyVal.int 0)),
         ("avg_power", dGetD (match dGetD d "summaryDTO" (.dict []) with
                              | .dict sd => sd
                              | _ => []) "averagePower" (PyVal.int 0)),
         ("max_power", dGetD (match dGetD d "summaryDTO" (.dict []) with
                              | .dict sd => sd
                              | _ => []) "maxPower" (PyVal.int 0)),
         ("training_effect", dGetD (match dGetD d "summaryDTO" (.dict []) with
                                    | .dict sd => sd
                                    | _ => []) "trainingEffect" (PyVal.int 0)),
         ("anaerobic_training_effect", dGetD (match dGetD d "summaryDTO" (.dict []) with
                                              | .dict sd => sd
                                              | _ => []) "anaerobicTrainingEffect" (PyVal.int 0)),
         ("avg_speed_ms", dGetD (match dGetD d "summaryDTO" (.dict []) with
                                 | .dict sd => sd
                                 | _ => []) "averageSpeed" (PyVal.int 0)),
         ("max_speed_ms", dGetD (match dGetD d "summaryDTO" (.dict []) with
                                 | .dict sd => sd
                                 | _ => []) "maxSpeed" (PyVal.int 0))]) := by
      rw [normalizeResolved]
      simp only [bind, Except.bind, hct]
    refine ⟨_, sdq, suq, hfull.trans hnr, hsd, hsu, ?_, ?_, ?_⟩
    · intro _
      constructor
      · have he : qDiv sdq 1000 = sdq / 1000 := qDiv_eq sdq 1000
        rw [he]
        rfl
      · have he : qDiv suq 60 = suq / 60 := qDiv_eq suq 60
        rw [he]
        rfl
    · intro h
      exact absurd h hvse
    · constructor
      · intro hq0
        have hq : qDiv sdq 1000 = 0 := by
          have h2 : decide (qDiv sdq 1000 = 0) = true := hq0
          simpa using h2
        rw [qDiv_eq] at hq
        have hs0 : sdq = 0 := by
          rcases div_eq_zero_iff.mp hq with h3 | h3
          · exact h3
          · norm_num at h3
        exact hiff.mp hs0
      · intro hno
        have hs0 : sdq = 0 := hiff.mpr hno
        show pyEq0 (PyVal.float (qDiv sdq 1000)) = true
        rw [hs0]
        have hz2 : qDiv (0 : ℚ) 1000 = 0 := by
          rw [qDiv_eq]
          norm_num
        rw [hz2]
        rfl

/-- C4 witness: a summary-less payload with one valid 2 km / 10 min lap. -/
theorem c4_witness :
    ∃ (res : PyVal) (sd su : ℚ),
      normalize_activity (.dict [("lapDTOs",
        .list [.dict [("distance", .int 2000), ("duration", .int 600)]])]) = .ok res ∧
      pySumKey "distance" [.dict [("distance", .int 2000), ("duration", .int 600)]] = .ok sd ∧
      pySumKey "duration" [.dict [("distance", .int 2000), ("duration", .int 600)]] = .ok su ∧
      (([.dict [("distance", .int 2000), ("duration", .int 600)]] : List PyVal) ≠ [] →
        dGetV res "distance_km" = .float (sd / 1000) ∧
        dGetV res "duration_min" = .float (su / 60)) ∧
      (([.dict [("distance", .int 2000), ("duration", .int 600)]] : List PyVal) = [] →
        dGetV res "distance_km" = .int 0 ∧ dGetV res "duration_min" = .int 0 ∧
        dGetV res "laps" = .list [] ∧ dGetV res "avg_pace_min_per_km" = .int 0) ∧
      (pyEq0 (dGetV res "distance_km") = true ↔
        ¬ ∃ s ∈ ([.dict [("distance", .int 2000), ("duration", .int 600)]] : List PyVal),
          ∃ dq : ℚ, lap_distance_num s = some dq ∧ 0 < dq) := by
  refine c4_lap_fallback [("lapDTOs",
      .list [.dict [("distance", .int 2000), ("duration", .int 600)]])]
    [.dict [("distance", .int 2000), ("duration", .int 600)]]
    [.dict [("distance", .int 2000), ("duration", .int 600)]]
    (by decide) (by decide) (by decide) (by decide) (by decide) ?_
  intro s hs
  rw [List.mem_singleton] at hs
  subst hs
  exact ⟨[("distance", .int 2000), ("duration", .int 600)], rfl,
    ⟨2000, by decide, by decide⟩, ⟨600, by decide⟩⟩
